import Mathlib

/-!
Verification development for the Ring-LWE key-exchange core (src/kex.c).

The C source is shallowly embedded: polynomials and byte buffers are
functions from indices to numbers, machine-integer arithmetic is modelled
on Nat/Int with explicit reduction modulo 2^32 where the C code relies on
unsigned wrap-around, and the three external oracles (random bytes,
extendable output, stream output) are explicit function arguments.
Functions of the repository that are declared but whose definitions are
not part of src/ (the NTT engine, the modular-arithmetic primitives and
the numeric parameters from the private header) are modelled from the
specification and carry a doc comment saying so.
-/

set_option maxRecDepth 4000

namespace LatticeCrypto

/-- Modelled from the spec: the modulus q = 12289 (PARAMETER_Q of the
missing private header; spec section 3 fixes q = 12289). -/
def PARAMETER_Q : Nat := 12289

/-- Modelled from the spec: the ring dimension n = 1024 (PARAMETER_N of
the missing private header; spec section 3 fixes n = 1024). -/
def PARAMETER_N : Nat := 1024

/-- Modelled from the spec: reconciliation threshold q/4 as an integer
(q is odd, so the integer threshold is the ceiling 3073; then
y >= PARAMETER_Q4 holds exactly when 4*y > q). -/
def PARAMETER_Q4 : Nat := 3073

/-- Modelled from the spec: reconciliation threshold 3q/4 (ceiling). -/
def PARAMETER_3Q4 : Nat := 9217

/-- Modelled from the spec: reconciliation threshold 5q/4 (ceiling). -/
def PARAMETER_5Q4 : Nat := 15362

/-- Modelled from the spec: reconciliation threshold 7q/4 (ceiling). -/
def PARAMETER_7Q4 : Nat := 21506

/-- Modelled from the spec: reconciliation threshold q/2 (ceiling 6145). -/
def PARAMETER_Q2 : Nat := 6145

/-- Modelled from the spec: reconciliation threshold 3q/2 (ceiling). -/
def PARAMETER_3Q2 : Nat := 18434

/-- Modelled from the spec: seed length in bytes for the XOF input. -/
def SEED_BYTES : Nat := 32

/-- Modelled from the spec: error-seed length in bytes. -/
def ERROR_SEED_BYTES : Nat := 32

/-- Modelled from the spec: stream-oracle nonce length in bytes. -/
def NONCE_SEED_BYTES : Nat := 8

/-- Status codes of the library, from the error table of
LatticeCrypto_get_error_message (kex.c lines 77-87). -/
inductive CRYPTO_STATUS where
  | CRYPTO_SUCCESS
  | CRYPTO_ERROR
  | CRYPTO_ERROR_DURING_TEST
  | CRYPTO_ERROR_UNKNOWN
  | CRYPTO_ERROR_NOT_IMPLEMENTED
  | CRYPTO_ERROR_NO_MEMORY
  | CRYPTO_ERROR_INVALID_PARAMETER
  | CRYPTO_ERROR_SHARED_KEY
  | CRYPTO_ERROR_TOO_MANY_ITERATIONS
  deriving DecidableEq

export CRYPTO_STATUS (CRYPTO_SUCCESS CRYPTO_ERROR CRYPTO_ERROR_DURING_TEST
  CRYPTO_ERROR_UNKNOWN CRYPTO_ERROR_NOT_IMPLEMENTED CRYPTO_ERROR_NO_MEMORY
  CRYPTO_ERROR_INVALID_PARAMETER CRYPTO_ERROR_SHARED_KEY
  CRYPTO_ERROR_TOO_MANY_ITERATIONS)

/-!
Packers (kex.c encode_A / decode_A / encode_B / decode_B).

A polynomial to be packed is a function from coefficient indices to its
uint32 coefficient values; a message is a function from byte indices to
byte values.  Four 14-bit coefficients are packed into seven bytes; the
(unsigned char) casts of the C code are the explicit % 256.
-/

/-- Byte k (0 <= k < 7) of the 7-byte group g of the 14-bit packing,
with coefficients pk (4g) .. pk (4g+3) (kex.c encode_A lines 104-113;
encode_B duplicates the same statements verbatim, lines 159-168). -/
def encodeByte (pk : Nat → Nat) (g k : Nat) : Nat :=
  match k with
  | 0 => pk (4*g) &&& 0xFF
  | 1 => ((pk (4*g) >>> 8) ||| ((pk (4*g+1) &&& 0x03) <<< 6)) % 256
  | 2 => (pk (4*g+1) >>> 2) &&& 0xFF
  | 3 => ((pk (4*g+1) >>> 10) ||| ((pk (4*g+2) &&& 0x0F) <<< 4)) % 256
  | 4 => (pk (4*g+2) >>> 4) &&& 0xFF
  | 5 => ((pk (4*g+2) >>> 12) ||| ((pk (4*g+3) &&& 0x3F) <<< 2)) % 256
  | _ => (pk (4*g+3) >>> 6) % 256

/-- Coefficient number 4g+l recovered from bytes 7g..7g+6 of a message
(kex.c decode_A lines 134-137; decode_B duplicates them, lines 190-193). -/
def decodeCoeff (m : Nat → Nat) (g l : Nat) : Nat :=
  match l with
  | 0 => m (7*g) ||| ((m (7*g+1) &&& 0x3F) <<< 8)
  | 1 => (m (7*g+1) >>> 6) ||| (m (7*g+2) <<< 2) ||| ((m (7*g+3) &&& 0x0F) <<< 10)
  | 2 => (m (7*g+3) >>> 4) ||| (m (7*g+4) <<< 4) ||| ((m (7*g+5) &&& 0x03) <<< 12)
  | _ => (m (7*g+5) >>> 2) ||| (m (7*g+6) <<< 6)

/-- Alice's message encoding (kex.c encode_A): 1792 bytes of packed
polynomial followed by the 32 seed bytes. -/
def encode_A (pk : Nat → Nat) (seed : Nat → Nat) : Nat → Nat :=
  fun idx =>
    if idx < 1792 then encodeByte pk (idx / 7) (idx % 7)
    else if idx < 1824 then seed (idx - 1792)
    else 0

/-- Alice's message decoding (kex.c decode_A): the packed polynomial and
the seed copied from offset 1792. -/
def decode_A (m : Nat → Nat) : (Nat → Nat) × (Nat → Nat) :=
  (fun j => decodeCoeff m (j / 4) (j % 4), fun j => m (1792 + j))

/-- Bob's message encoding (kex.c encode_B): 1792 bytes of packed
polynomial followed by 256 bytes of hint, four 2-bit entries per byte,
least significant first. -/
def encode_B (pk : Nat → Nat) (rvec : Nat → Nat) : Nat → Nat :=
  fun idx =>
    if idx < 1792 then encodeByte pk (idx / 7) (idx % 7)
    else if idx < 2048 then
      (rvec (4*(idx - 1792)) ||| (rvec (4*(idx - 1792)+1) <<< 2) |||
       (rvec (4*(idx - 1792)+2) <<< 4) ||| (rvec (4*(idx - 1792)+3) <<< 6)) % 256
    else 0

/-- Bob's message decoding (kex.c decode_B): the packed polynomial and
the hint vector unpacked with masks and shifts. -/
def decode_B (m : Nat → Nat) : (Nat → Nat) × (Nat → Nat) :=
  (fun j => decodeCoeff m (j / 4) (j % 4),
   fun j =>
     match j % 4 with
     | 0 => m (1792 + j / 4) &&& 0x03
     | 1 => (m (1792 + j / 4) >>> 2) &&& 0x03
     | 2 => (m (1792 + j / 4) >>> 4) &&& 0x03
     | _ => m (1792 + j / 4) >>> 6)

/-!
Bit-arithmetic helper lemmas used to reason about the packers.
-/

lemma lor_small (a b k : Nat) (h : a < 2 ^ k) : a ||| (b <<< k) = b <<< k + a := by
  apply Nat.eq_of_testBit_eq
  intro i
  have h2 : b <<< k + a = 2 ^ k * b + a := by rw [Nat.shiftLeft_eq]; ring
  rw [h2, Nat.testBit_mul_pow_two_add _ h i]
  simp only [Nat.testBit_lor, Nat.shiftLeft_eq]
  rcases lt_or_le i k with hik | hik
  · rw [if_pos hik]
    have hz : (b * 2 ^ k).testBit i = false := by
      rw [mul_comm, Nat.testBit_mul_pow_two]
      simp [Nat.not_le.mpr hik]
    simp [hz]
  · rw [if_neg (by omega)]
    have hb : a.testBit i = false :=
      Nat.testBit_eq_false_of_lt (lt_of_lt_of_le h (Nat.pow_le_pow_right (by norm_num) hik))
    rw [mul_comm, Nat.testBit_mul_pow_two]
    simp [hb, hik]

lemma and3 (x : Nat) : x &&& 3 = x % 4 := by
  have := Nat.and_pow_two_sub_one_eq_mod x 2
  norm_num at this
  exact this

lemma and15 (x : Nat) : x &&& 15 = x % 16 := by
  have := Nat.and_pow_two_sub_one_eq_mod x 4
  norm_num at this
  exact this

lemma and63 (x : Nat) : x &&& 63 = x % 64 := by
  have := Nat.and_pow_two_sub_one_eq_mod x 6
  norm_num at this
  exact this

lemma and255 (x : Nat) : x &&& 255 = x % 256 := by
  have := Nat.and_pow_two_sub_one_eq_mod x 8
  norm_num at this
  exact this

lemma shr (x k : Nat) : x >>> k = x / 2 ^ k := Nat.shiftRight_eq_div_pow x k

lemma lor4 (a b : Nat) (h : a < 4) : a ||| (b <<< 2) = b * 4 + a := by
  rw [lor_small a b 2 (by omega), Nat.shiftLeft_eq]

lemma lor16 (a b : Nat) (h : a < 16) : a ||| (b <<< 4) = b * 16 + a := by
  rw [lor_small a b 4 (by omega), Nat.shiftLeft_eq]

lemma lor64 (a b : Nat) (h : a < 64) : a ||| (b <<< 6) = b * 64 + a := by
  rw [lor_small a b 6 (by omega), Nat.shiftLeft_eq]

lemma lor256 (a b : Nat) (h : a < 256) : a ||| (b <<< 8) = b * 256 + a := by
  rw [lor_small a b 8 (by omega), Nat.shiftLeft_eq]

lemma lor1024 (a b : Nat) (h : a < 1024) : a ||| (b <<< 10) = b * 1024 + a := by
  rw [lor_small a b 10 (by omega), Nat.shiftLeft_eq]

lemma lor4096 (a b : Nat) (h : a < 4096) : a ||| (b <<< 12) = b * 4096 + a := by
  rw [lor_small a b 12 (by omega), Nat.shiftLeft_eq]

/-!
Arithmetic characterisation of the seven packed bytes, for coefficients
below 2^14.
-/

lemma encodeByte0_eq (pk : Nat → Nat) (g : Nat) :
    encodeByte pk g 0 = pk (4*g) % 256 := by
  simp only [encodeByte, and255]

lemma encodeByte1_eq (pk : Nat → Nat) (g : Nat) (h0 : pk (4*g) < 16384) :
    encodeByte pk g 1 = pk (4*g+1) % 4 * 64 + pk (4*g) / 256 := by
  simp only [encodeByte]
  rw [shr, and3, lor64 _ _ (by omega), Nat.mod_eq_of_lt (by omega)]
  norm_num

lemma encodeByte2_eq (pk : Nat → Nat) (g : Nat) :
    encodeByte pk g 2 = pk (4*g+1) / 4 % 256 := by
  simp only [encodeByte]
  rw [shr, and255]
  norm_num

lemma encodeByte3_eq (pk : Nat → Nat) (g : Nat) (h1 : pk (4*g+1) < 16384) :
    encodeByte pk g 3 = pk (4*g+2) % 16 * 16 + pk (4*g+1) / 1024 := by
  simp only [encodeByte]
  rw [shr, and15, lor16 _ _ (by omega), Nat.mod_eq_of_lt (by omega)]
  norm_num

lemma encodeByte4_eq (pk : Nat → Nat) (g : Nat) :
    encodeByte pk g 4 = pk (4*g+2) / 16 % 256 := by
  simp only [encodeByte]
  rw [shr, and255]
  norm_num

lemma encodeByte5_eq (pk : Nat → Nat) (g : Nat) (h2 : pk (4*g+2) < 16384) :
    encodeByte pk g 5 = pk (4*g+3) % 64 * 4 + pk (4*g+2) / 4096 := by
  simp only [encodeByte]
  rw [shr, and63, lor4 _ _ (by omega), Nat.mod_eq_of_lt (by omega)]
  norm_num

lemma encodeByte6_eq (pk : Nat → Nat) (g : Nat) (h3 : pk (4*g+3) < 16384) :
    encodeByte pk g 6 = pk (4*g+3) / 64 := by
  simp only [encodeByte]
  rw [shr, Nat.mod_eq_of_lt (by omega)]
  norm_num

lemma encodeByte_lt (pk : Nat → Nat) (g k : Nat) : encodeByte pk g k < 256 := by
  match k with
  | 0 => simp only [encodeByte, and255]; omega
  | 1 => simp only [encodeByte]; omega
  | 2 => simp only [encodeByte, and255]; omega
  | 3 => simp only [encodeByte]; omega
  | 4 => simp only [encodeByte, and255]; omega
  | 5 => simp only [encodeByte]; omega
  | (n+6) => simp only [encodeByte]; omega

lemma encode_A_byte (pk seed : Nat → Nat) (g i : Nat) (hg : g < 256) (hi : i < 7) :
    encode_A pk seed (7*g+i) = encodeByte pk g i := by
  have h1 : (7*g+i) / 7 = g := by omega
  have h2 : (7*g+i) % 7 = i := by omega
  simp only [encode_A]
  rw [if_pos (by omega), h1, h2]

lemma encode_B_byte (pk rvec : Nat → Nat) (g i : Nat) (hg : g < 256) (hi : i < 7) :
    encode_B pk rvec (7*g+i) = encodeByte pk g i := by
  have h1 : (7*g+i) / 7 = g := by omega
  have h2 : (7*g+i) % 7 = i := by omega
  simp only [encode_B]
  rw [if_pos (by omega), h1, h2]

/-!
The four coefficient round-trip identities.
-/

lemma decodeCoeff_encode0 (m pk : Nat → Nat) (g : Nat)
    (h0 : pk (4*g) < 16384) (h1 : pk (4*g+1) < 16384)
    (e0 : m (7*g) = encodeByte pk g 0) (e1 : m (7*g+1) = encodeByte pk g 1) :
    decodeCoeff m g 0 = pk (4*g) := by
  simp only [decodeCoeff, e0, e1, encodeByte0_eq, encodeByte1_eq pk g h0]
  rw [and63, lor256 _ _ (by omega)]
  omega

lemma decodeCoeff_encode1 (m pk : Nat → Nat) (g : Nat)
    (h0 : pk (4*g) < 16384) (h1 : pk (4*g+1) < 16384) (h2 : pk (4*g+2) < 16384)
    (e1 : m (7*g+1) = encodeByte pk g 1) (e2 : m (7*g+2) = encodeByte pk g 2)
    (e3 : m (7*g+3) = encodeByte pk g 3) :
    decodeCoeff m g 1 = pk (4*g+1) := by
  simp only [decodeCoeff, e1, e2, e3, encodeByte1_eq pk g h0, encodeByte2_eq,
    encodeByte3_eq pk g h1]
  rw [shr, and15]
  norm_num
  rw [lor4 _ _ (by omega), lor1024 _ _ (by omega)]
  omega

lemma decodeCoeff_encode2 (m pk : Nat → Nat) (g : Nat)
    (h1 : pk (4*g+1) < 16384) (h2 : pk (4*g+2) < 16384) (h3 : pk (4*g+3) < 16384)
    (e3 : m (7*g+3) = encodeByte pk g 3) (e4 : m (7*g+4) = encodeByte pk g 4)
    (e5 : m (7*g+5) = encodeByte pk g 5) :
    decodeCoeff m g 2 = pk (4*g+2) := by
  simp only [decodeCoeff, e3, e4, e5, encodeByte3_eq pk g h1, encodeByte4_eq,
    encodeByte5_eq pk g h2]
  rw [shr, and3]
  norm_num
  rw [lor16 _ _ (by omega), lor4096 _ _ (by omega)]
  omega

lemma decodeCoeff_encode3 (m pk : Nat → Nat) (g : Nat)
    (h2 : pk (4*g+2) < 16384) (h3 : pk (4*g+3) < 16384)
    (e5 : m (7*g+5) = encodeByte pk g 5) (e6 : m (7*g+6) = encodeByte pk g 6) :
    decodeCoeff m g 3 = pk (4*g+3) := by
  simp only [decodeCoeff, e5, e6, encodeByte5_eq pk g h2, encodeByte6_eq pk g h3]
  rw [shr]
  norm_num
  rw [lor64 _ _ (by omega)]
  omega

/-- Round-trip of the coefficient packing shared by the A- and B-message
coders: decoding group g of a message whose bytes 7g..7g+6 agree with
encodeByte recovers the four coefficients. -/
lemma decode_encode_poly (m pk : Nat → Nat) (j : Nat) (hj : j < 1024)
    (hbound : ∀ i, i < 1024 → pk i < 16384)
    (hm : ∀ i, i < 7 → m (7*(j/4)+i) = encodeByte pk (j/4) i) :
    decodeCoeff m (j / 4) (j % 4) = pk j := by
  have hg : j / 4 < 256 := by omega
  have h0 := hbound (4*(j/4)) (by omega)
  have h1 := hbound (4*(j/4)+1) (by omega)
  have h2 := hbound (4*(j/4)+2) (by omega)
  have h3 := hbound (4*(j/4)+3) (by omega)
  have hl : j % 4 = 0 ∨ j % 4 = 1 ∨ j % 4 = 2 ∨ j % 4 = 3 := by omega
  rcases hl with hl | hl | hl | hl <;> rw [hl]
  · rw [decodeCoeff_encode0 m pk (j/4) h0 h1 (hm 0 (by omega)) (hm 1 (by omega))]
    congr 1; omega
  · rw [decodeCoeff_encode1 m pk (j/4) h0 h1 h2 (hm 1 (by omega)) (hm 2 (by omega))
      (hm 3 (by omega))]
    congr 1; omega
  · rw [decodeCoeff_encode2 m pk (j/4) h1 h2 h3 (hm 3 (by omega)) (hm 4 (by omega))
      (hm 5 (by omega))]
    congr 1; omega
  · rw [decodeCoeff_encode3 m pk (j/4) h2 h3 (hm 5 (by omega)) (hm 6 (by omega))]
    congr 1; omega

/-- Claim C6 theorem. For every polynomial of 1024 coefficients below 2^14
and every 32-byte seed, decode_A inverts encode_A: the decoded polynomial
agrees with the input on all 1024 coefficients and the decoded seed agrees
on all 32 bytes. -/
theorem C6_decode_A_encode_A (pk seed : Nat → Nat)
    (hbound : ∀ i, i < 1024 → pk i < 16384) :
    (∀ j, j < 1024 → (decode_A (encode_A pk seed)).1 j = pk j) ∧
    (∀ j, j < 32 → (decode_A (encode_A pk seed)).2 j = seed j) := by
  constructor
  · intro j hj
    show decodeCoeff (encode_A pk seed) (j / 4) (j % 4) = pk j
    exact decode_encode_poly _ pk j hj hbound
      (fun i hi => encode_A_byte pk seed (j/4) i (by omega) hi)
  · intro j hj
    show encode_A pk seed (1792 + j) = seed j
    have h1 : ¬ (1792 + j < 1792) := by omega
    have h2 : 1792 + j < 1824 := by omega
    have h3 : 1792 + j - 1792 = j := by omega
    simp only [encode_A]
    rw [if_neg h1, if_pos h2, h3]

/-- Claim C6 witness: the round-trip theorem applied to the zero polynomial
and zero seed. -/
theorem C6_decode_A_encode_A_witness :
    (∀ i, i < 1024 → (fun _ : Nat => 0) i < 16384) ∧
    ((∀ j, j < 1024 →
        (decode_A (encode_A (fun _ => 0) (fun _ => 0))).1 j = (fun _ : Nat => 0) j) ∧
     (∀ j, j < 32 →
        (decode_A (encode_A (fun _ => 0) (fun _ => 0))).2 j = (fun _ : Nat => 0) j)) :=
  ⟨fun _ _ => by norm_num,
   C6_decode_A_encode_A (fun _ => 0) (fun _ => 0) (fun _ _ => by norm_num)⟩


/-!
Hint packing (encode_B bytes 1792..2047) and its inverse.
-/

lemma encode_B_hintByte (pk rvec : Nat → Nat) (j : Nat) (hj : j < 256)
    (hr : ∀ c, c < 4 → rvec (4*j+c) ≤ 3) :
    encode_B pk rvec (1792 + j) =
      rvec (4*j+3) * 64 + rvec (4*j+2) * 16 + rvec (4*j+1) * 4 + rvec (4*j) := by
  have h1 : ¬ (1792 + j < 1792) := by omega
  have h2 : 1792 + j < 2048 := by omega
  have h3 : 1792 + j - 1792 = j := by omega
  have r0 : rvec (4*j) ≤ 3 := by simpa using hr 0 (by omega)
  have r1 := hr 1 (by omega)
  have r2 := hr 2 (by omega)
  have r3 := hr 3 (by omega)
  simp only [encode_B]
  rw [if_neg h1, if_pos h2, h3]
  rw [lor4 _ _ (by omega), lor16 _ _ (by omega), lor64 _ _ (by omega),
    Nat.mod_eq_of_lt (by omega)]
  omega

/-- Round-trip of the 2-bit hint packing: hint entry j is recovered from
byte 1792 + j/4 of encode_B output when all entries are in {0,1,2,3}. -/
lemma decode_encode_hint (pk rvec : Nat → Nat) (j : Nat) (hj : j < 1024)
    (hr : ∀ i, i < 1024 → rvec i ≤ 3) :
    (decode_B (encode_B pk rvec)).2 j = rvec j := by
  have hbyte : encode_B pk rvec (1792 + j / 4) =
      rvec (4*(j/4)+3) * 64 + rvec (4*(j/4)+2) * 16 +
      rvec (4*(j/4)+1) * 4 + rvec (4*(j/4)) := by
    apply encode_B_hintByte pk rvec (j/4) (by omega)
    intro c hc
    exact hr (4*(j/4)+c) (by omega)
  have r0 := hr (4*(j/4)) (by omega)
  have r1 := hr (4*(j/4)+1) (by omega)
  have r2 := hr (4*(j/4)+2) (by omega)
  have r3 := hr (4*(j/4)+3) (by omega)
  have hl : j % 4 = 0 ∨ j % 4 = 1 ∨ j % 4 = 2 ∨ j % 4 = 3 := by omega
  rcases hl with hl | hl | hl | hl
  · have hjc : 4*(j/4) = j := by omega
    have hrv := congrArg rvec hjc
    simp only [decode_B, hl, hbyte]
    rw [and3, ← hrv]
    omega
  · have hjc : 4*(j/4)+1 = j := by omega
    have hrv := congrArg rvec hjc
    simp only [decode_B, hl, hbyte]
    rw [shr, and3, ← hrv]
    omega
  · have hjc : 4*(j/4)+2 = j := by omega
    have hrv := congrArg rvec hjc
    simp only [decode_B, hl, hbyte]
    rw [shr, and3, ← hrv]
    omega
  · have hjc : 4*(j/4)+3 = j := by omega
    have hrv := congrArg rvec hjc
    simp only [decode_B, hl, hbyte]
    rw [shr, ← hrv]
    omega

/-- Claim C7 theorem. For every polynomial of 1024 coefficients below 2^14
and every hint vector of 1024 entries in {0,1,2,3}, decode_B inverts
encode_B on both components. -/
theorem C7_decode_B_encode_B (pk rvec : Nat → Nat)
    (hbound : ∀ i, i < 1024 → pk i < 16384)
    (hr : ∀ i, i < 1024 → rvec i ≤ 3) :
    (∀ j, j < 1024 → (decode_B (encode_B pk rvec)).1 j = pk j) ∧
    (∀ j, j < 1024 → (decode_B (encode_B pk rvec)).2 j = rvec j) := by
  constructor
  · intro j hj
    show decodeCoeff (encode_B pk rvec) (j / 4) (j % 4) = pk j
    exact decode_encode_poly _ pk j hj hbound
      (fun i hi => encode_B_byte pk rvec (j/4) i (by omega) hi)
  · intro j hj
    exact decode_encode_hint pk rvec j hj hr

/-- Claim C7 witness: the round-trip theorem applied to the constant
polynomial 12345 and the constant hint 2. -/
theorem C7_decode_B_encode_B_witness :
    ((∀ i, i < 1024 → (fun _ : Nat => 12345) i < 16384) ∧
     (∀ i, i < 1024 → (fun _ : Nat => 2) i ≤ 3)) ∧
    ((∀ j, j < 1024 →
        (decode_B (encode_B (fun _ => 12345) (fun _ => 2))).1 j = (fun _ : Nat => 12345) j) ∧
     (∀ j, j < 1024 →
        (decode_B (encode_B (fun _ => 12345) (fun _ => 2))).2 j = (fun _ : Nat => 2) j)) :=
  ⟨⟨fun _ _ => by norm_num, fun _ _ => by norm_num⟩,
   C7_decode_B_encode_B (fun _ => 12345) (fun _ => 2)
     (fun _ _ => by norm_num) (fun _ _ => by norm_num)⟩

/-!
Claim C8: the decoders validate nothing.  Arithmetic characterisation of
the decoded coefficients from arbitrary bytes.
-/

lemma decodeCoeff0_eq (m : Nat → Nat) (g : Nat) (h0 : m (7*g) < 256) :
    decodeCoeff m g 0 = m (7*g+1) % 64 * 256 + m (7*g) := by
  simp only [decodeCoeff]
  rw [and63, lor256 _ _ (by omega)]

lemma decodeCoeff1_eq (m : Nat → Nat) (g : Nat)
    (h1 : m (7*g+1) < 256) (h2 : m (7*g+2) < 256) :
    decodeCoeff m g 1 = m (7*g+3) % 16 * 1024 + m (7*g+2) * 4 + m (7*g+1) / 64 := by
  simp only [decodeCoeff]
  rw [shr, and15]
  norm_num
  rw [lor4 _ _ (by omega), lor1024 _ _ (by omega)]
  omega

lemma decodeCoeff2_eq (m : Nat → Nat) (g : Nat)
    (h3 : m (7*g+3) < 256) (h4 : m (7*g+4) < 256) :
    decodeCoeff m g 2 = m (7*g+5) % 4 * 4096 + m (7*g+4) * 16 + m (7*g+3) / 16 := by
  simp only [decodeCoeff]
  rw [shr, and3]
  norm_num
  rw [lor16 _ _ (by omega), lor4096 _ _ (by omega)]
  omega

lemma decodeCoeff3_eq (m : Nat → Nat) (g : Nat) (h5 : m (7*g+5) < 256) :
    decodeCoeff m g 3 = m (7*g+6) * 64 + m (7*g+5) / 4 := by
  simp only [decodeCoeff]
  rw [shr]
  norm_num
  rw [lor64 _ _ (by omega)]

lemma decodeCoeff_lt (m : Nat → Nat) (g l : Nat) (hb : ∀ i, i < 7 → m (7*g+i) < 256)
    (hl : l < 4) : decodeCoeff m g l < 16384 := by
  have h0 : m (7*g) < 256 := by simpa using hb 0 (by omega)
  have h1 := hb 1 (by omega)
  have h2 := hb 2 (by omega)
  have h3 := hb 3 (by omega)
  have h4 := hb 4 (by omega)
  have h5 := hb 5 (by omega)
  have h6 := hb 6 (by omega)
  interval_cases l
  · rw [decodeCoeff0_eq m g h0]; omega
  · rw [decodeCoeff1_eq m g h1 h2]; omega
  · rw [decodeCoeff2_eq m g h3 h4]; omega
  · rw [decodeCoeff3_eq m g h5]; omega

/-- Re-encoding the four coefficients decoded from arbitrary bytes
reproduces those bytes: the decoders apply only the inverse masks and
shifts, with no reduction or comparison against q. -/
lemma encodeByte_decodeCoeff (m : Nat → Nat) (g k : Nat) (hk : k < 7)
    (hb : ∀ i, i < 7 → m (7*g+i) < 256) :
    encodeByte (fun j => decodeCoeff m (j / 4) (j % 4)) g k = m (7*g+k) := by
  have h0 : m (7*g) < 256 := by simpa using hb 0 (by omega)
  have h1 := hb 1 (by omega)
  have h2 := hb 2 (by omega)
  have h3 := hb 3 (by omega)
  have h4 := hb 4 (by omega)
  have h5 := hb 5 (by omega)
  have h6 := hb 6 (by omega)
  have i0 : (4*g) / 4 = g ∧ (4*g) % 4 = 0 := by omega
  have i1 : (4*g+1) / 4 = g ∧ (4*g+1) % 4 = 1 := by omega
  have i2 : (4*g+2) / 4 = g ∧ (4*g+2) % 4 = 2 := by omega
  have i3 : (4*g+3) / 4 = g ∧ (4*g+3) % 4 = 3 := by omega
  have d0 := decodeCoeff0_eq m g h0
  have d1 := decodeCoeff1_eq m g h1 h2
  have d2 := decodeCoeff2_eq m g h3 h4
  have d3 := decodeCoeff3_eq m g h5
  interval_cases k
  · simp only [encodeByte, i0.1, i0.2, d0, Nat.add_zero]
    rw [and255]
    omega
  · simp only [encodeByte, i0.1, i0.2, i1.1, i1.2, d0, d1]
    have ha : (m (7*g+1) % 64 * 256 + m (7*g)) >>> 8 = m (7*g+1) % 64 := by
      rw [shr]; omega
    have hc : (m (7*g+3) % 16 * 1024 + m (7*g+2) * 4 + m (7*g+1) / 64) &&& 3 =
        m (7*g+1) / 64 := by
      rw [and3]; omega
    rw [ha, hc, lor64 _ _ (by omega), Nat.mod_eq_of_lt (by omega)]
    omega
  · simp only [encodeByte, i1.1, i1.2, d1]
    have ha : (m (7*g+3) % 16 * 1024 + m (7*g+2) * 4 + m (7*g+1) / 64) >>> 2 =
        m (7*g+3) % 16 * 256 + m (7*g+2) + m (7*g+1) / 64 / 4 := by
      rw [shr]; omega
    rw [ha, and255]
    omega
  · simp only [encodeByte, i1.1, i1.2, i2.1, i2.2, d1, d2]
    have ha : (m (7*g+3) % 16 * 1024 + m (7*g+2) * 4 + m (7*g+1) / 64) >>> 10 =
        m (7*g+3) % 16 := by
      rw [shr]; omega
    have hc : (m (7*g+5) % 4 * 4096 + m (7*g+4) * 16 + m (7*g+3) / 16) &&& 15 =
        m (7*g+3) / 16 := by
      rw [and15]; omega
    rw [ha, hc, lor16 _ _ (by omega), Nat.mod_eq_of_lt (by omega)]
    omega
  · simp only [encodeByte, i2.1, i2.2, d2]
    have ha : (m (7*g+5) % 4 * 4096 + m (7*g+4) * 16 + m (7*g+3) / 16) >>> 4 =
        m (7*g+5) % 4 * 256 + m (7*g+4) + m (7*g+3) / 16 / 16 := by
      rw [shr]; omega
    rw [ha, and255]
    omega
  · simp only [encodeByte, i2.1, i2.2, i3.1, i3.2, d2, d3]
    have ha : (m (7*g+5) % 4 * 4096 + m (7*g+4) * 16 + m (7*g+3) / 16) >>> 12 =
        m (7*g+5) % 4 := by
      rw [shr]; omega
    have hc : (m (7*g+6) * 64 + m (7*g+5) / 4) &&& 63 = m (7*g+5) / 4 := by
      rw [and63]; omega
    rw [ha, hc, lor4 _ _ (by omega), Nat.mod_eq_of_lt (by omega)]
    omega
  · simp only [encodeByte, i3.1, i3.2, d3]
    have ha : (m (7*g+6) * 64 + m (7*g+5) / 4) >>> 6 = m (7*g+6) := by
      rw [shr]; omega
    rw [ha, Nat.mod_eq_of_lt (by omega)]


/-- Claim C8 theorem. Decoding is total and validation-free: from any
byte string of the right length, every decoded polynomial coefficient is
below 2^14 (values at or above q included, unchanged), every decoded hint
entry is in {0,1,2,3}, and re-encoding the decoded values reproduces the
input bytes exactly (so no coefficient was clamped, reduced or rejected).
The final conjunct exhibits the all-0xFF message decoding to 16383 >= q. -/
theorem C8_decode_no_validation :
    (∀ m : Nat → Nat, (∀ i, i < 1824 → m i < 256) →
       (∀ j, j < 1024 → (decode_A m).1 j < 16384) ∧
       (∀ idx, idx < 1824 → encode_A (decode_A m).1 (decode_A m).2 idx = m idx)) ∧
    (∀ m : Nat → Nat, (∀ i, i < 2048 → m i < 256) →
       (∀ j, j < 1024 → (decode_B m).1 j < 16384 ∧ (decode_B m).2 j ≤ 3) ∧
       (∀ idx, idx < 2048 → encode_B (decode_B m).1 (decode_B m).2 idx = m idx)) ∧
    ((decode_A (fun _ => 255)).1 0 = 16383 ∧ PARAMETER_Q ≤ 16383) := by
  refine ⟨?_, ?_, by decide, by decide⟩
  · intro m hm
    constructor
    · intro j hj
      show decodeCoeff m (j / 4) (j % 4) < 16384
      exact decodeCoeff_lt m (j/4) (j%4)
        (fun i hi => hm (7*(j/4)+i) (by omega)) (by omega)
    · intro idx hidx
      rcases (by omega : idx < 1792 ∨ (1792 ≤ idx ∧ idx < 1824)) with hc | hc
      · have hi : 7*(idx/7) + idx%7 = idx := by omega
        have henc : encode_A (decode_A m).1 (decode_A m).2 idx =
            encodeByte (decode_A m).1 (idx/7) (idx%7) := by
          simp only [encode_A]
          rw [if_pos hc]
        rw [henc]
        have hmain := encodeByte_decodeCoeff m (idx/7) (idx%7) (by omega)
          (fun i hi2 => hm (7*(idx/7)+i) (by omega))
        calc encodeByte (decode_A m).1 (idx/7) (idx%7)
            = m (7*(idx/7) + idx%7) := hmain
          _ = m idx := by rw [hi]
      · have h1 : ¬ (idx < 1792) := by omega
        have h2 : idx < 1824 := by omega
        have h3 : 1792 + (idx - 1792) = idx := by omega
        simp only [encode_A]
        rw [if_neg h1, if_pos h2]
        show m (1792 + (idx - 1792)) = m idx
        rw [h3]
  · intro m hm
    constructor
    · intro j hj
      constructor
      · show decodeCoeff m (j / 4) (j % 4) < 16384
        exact decodeCoeff_lt m (j/4) (j%4)
          (fun i hi => hm (7*(j/4)+i) (by omega)) (by omega)
      · have hbyte : m (1792 + j / 4) < 256 := hm (1792 + j / 4) (by omega)
        show (decode_B m).2 j ≤ 3
        rcases (by omega : j % 4 = 0 ∨ j % 4 = 1 ∨ j % 4 = 2 ∨ j % 4 = 3) with hl | hl | hl | hl <;>
          simp only [decode_B, hl]
        · rw [and3]; omega
        · rw [shr, and3]; omega
        · rw [shr, and3]; omega
        · rw [shr]; omega
    · intro idx hidx
      rcases (by omega : idx < 1792 ∨ (1792 ≤ idx ∧ idx < 2048)) with hc | hc
      · have hi : 7*(idx/7) + idx%7 = idx := by omega
        have henc : encode_B (decode_B m).1 (decode_B m).2 idx =
            encodeByte (decode_B m).1 (idx/7) (idx%7) := by
          simp only [encode_B]
          rw [if_pos hc]
        rw [henc]
        have hmain := encodeByte_decodeCoeff m (idx/7) (idx%7) (by omega)
          (fun i hi2 => hm (7*(idx/7)+i) (by omega))
        calc encodeByte (decode_B m).1 (idx/7) (idx%7)
            = m (7*(idx/7) + idx%7) := hmain
          _ = m idx := by rw [hi]
      · have h1 : ¬ (idx < 1792) := by omega
        have h2 : idx < 2048 := by omega
        have hb : m (1792 + (idx - 1792)) < 256 := hm (1792 + (idx - 1792)) (by omega)
        have hr0 : (decode_B m).2 (4*(idx - 1792)) = m (1792 + (idx - 1792)) % 4 := by
          simp only [decode_B]
          rw [show (4*(idx - 1792)) % 4 = 0 from by omega,
            show (4*(idx - 1792)) / 4 = idx - 1792 from by omega]
          rw [and3]
        have hr1 : (decode_B m).2 (4*(idx - 1792)+1) = m (1792 + (idx - 1792)) / 4 % 4 := by
          simp only [decode_B]
          rw [show (4*(idx - 1792)+1) % 4 = 1 from by omega,
            show (4*(idx - 1792)+1) / 4 = idx - 1792 from by omega]
          show m (1792 + (idx - 1792)) >>> 2 &&& 3 = m (1792 + (idx - 1792)) / 4 % 4
          rw [shr, and3]
          omega
        have hr2 : (decode_B m).2 (4*(idx - 1792)+2) = m (1792 + (idx - 1792)) / 16 % 4 := by
          simp only [decode_B]
          rw [show (4*(idx - 1792)+2) % 4 = 2 from by omega,
            show (4*(idx - 1792)+2) / 4 = idx - 1792 from by omega]
          show m (1792 + (idx - 1792)) >>> 4 &&& 3 = m (1792 + (idx - 1792)) / 16 % 4
          rw [shr, and3]
          omega
        have hr3 : (decode_B m).2 (4*(idx - 1792)+3) = m (1792 + (idx - 1792)) / 64 := by
          simp only [decode_B]
          rw [show (4*(idx - 1792)+3) % 4 = 3 from by omega,
            show (4*(idx - 1792)+3) / 4 = idx - 1792 from by omega]
          show m (1792 + (idx - 1792)) >>> 6 = m (1792 + (idx - 1792)) / 64
          rw [shr]
          omega
        have h3 : 1792 + (idx - 1792) = idx := by omega
        simp only [encode_B]
        rw [if_neg h1, if_pos h2, hr0, hr1, hr2, hr3]
        rw [lor4 _ _ (by omega), lor16 _ _ (by omega), lor64 _ _ (by omega),
          Nat.mod_eq_of_lt (by omega), h3]
        omega

/-- Claim C8 witness: the theorem applied to the constant byte string 7. -/
theorem C8_decode_no_validation_witness :
    (∀ i, i < 1824 → (fun _ : Nat => 7) i < 256) ∧
    (∀ j, j < 1024 → (decode_A (fun _ => 7)).1 j < 16384) :=
  ⟨fun _ _ => by norm_num,
   (C8_decode_no_validation.1 (fun _ => 7) (fun _ _ => by norm_num)).1⟩


/-!
Reconciliation helper HelpRec (kex.c lines 227-281).

The per-group computation operates on uint32 values; unsigned 32-bit
subtraction, the logical shift by 31 and the Abs bit trick are modelled
explicitly on Nat with reduction modulo 2^32.
-/

/-- Unsigned 32-bit subtraction. -/
def u32sub (a b : Nat) : Nat := (a % 2^32 + 2^32 - b % 2^32) % 2^32

/-- Logical right shift by 31 of a 32-bit value: 1 exactly when the sign
bit is set. -/
def msb32 (w : Nat) : Nat := w % 2^32 / 2^31

/-- Absolute value of an int32 given by its uint32 bit pattern (kex.c Abs,
lines 215-221: mask = value >> 31; (mask XOR value) - mask). -/
def absI32 (w : Nat) : Nat := if w % 2^32 < 2^31 then w % 2^32 else 2^32 - w % 2^32

/-- Value rvec[i+256j] = (x << 1) - bit of HelpRec (kex.c lines 247-250),
an unsigned 32-bit computation. -/
def helpRecY (x b : Nat) : Nat := u32sub (2*x % 2^32) b

/-- Candidate v0[j] of HelpRec: 4 minus the four threshold mask bits
(kex.c lines 253, 256-259). -/
def v0lane (y : Nat) : Nat :=
  4 - (msb32 (u32sub y PARAMETER_Q4) + msb32 (u32sub y PARAMETER_3Q4) +
       msb32 (u32sub y PARAMETER_5Q4) + msb32 (u32sub y PARAMETER_7Q4))

/-- Candidate v1[j] of HelpRec: 3 minus the three threshold mask bits
(kex.c lines 254, 260-262). -/
def v1lane (y : Nat) : Nat :=
  3 - (msb32 (u32sub y PARAMETER_Q2) + msb32 (u32sub y PARAMETER_Q) +
       msb32 (u32sub y PARAMETER_3Q2))

/-- One summand Abs(2*rvec[i+256j] - PARAMETER_Q*v0[j]) of the norm
(kex.c line 263). -/
def normLane (y v : Nat) : Nat := absI32 (u32sub (2*y % 2^32) (PARAMETER_Q * v))

/-- The accumulated norm of one group (kex.c lines 252, 263), an unsigned
int. -/
def helpRecNormSum (x0 x1 x2 x3 b : Nat) : Nat :=
  (normLane (helpRecY x0 b) (v0lane (helpRecY x0 b)) +
   normLane (helpRecY x1 b) (v0lane (helpRecY x1 b)) +
   normLane (helpRecY x2 b) (v0lane (helpRecY x2 b)) +
   normLane (helpRecY x3 b) (v0lane (helpRecY x3 b))) % 2^32

/-- Selection mask of kex.c line 268: norm = (uint32)((int32)(norm -
PARAMETER_Q) >> 31) is all-ones exactly when the sign bit of
norm - PARAMETER_Q is set; the group keeps v0 in that case. -/
def helpRecSelV0 (x0 x1 x2 x3 b : Nat) : Bool :=
  decide (2^31 ≤ u32sub (helpRecNormSum x0 x1 x2 x3 b) PARAMETER_Q)

/-- The four hint values of one HelpRec group (kex.c lines 269-276; the
all-ones/zero mask combination (norm AND (v0 XOR v1)) XOR v1 is the
selection between v0 and v1, and 1 AND NOT norm is 0 when v0 is kept). -/
def helpRecGroup (x0 x1 x2 x3 b : Nat) : Nat × Nat × Nat × Nat :=
  let sel := helpRecSelV0 x0 x1 x2 x3 b
  let c0 := if sel then v0lane (helpRecY x0 b) else v1lane (helpRecY x0 b)
  let c1 := if sel then v0lane (helpRecY x1 b) else v1lane (helpRecY x1 b)
  let c2 := if sel then v0lane (helpRecY x2 b) else v1lane (helpRecY x2 b)
  let c3 := if sel then v0lane (helpRecY x3 b) else v1lane (helpRecY x3 b)
  (u32sub c0 c3 &&& 3, u32sub c1 c3 &&& 3, u32sub c2 c3 &&& 3,
   (2*c3 % 2^32 + (if sel then 0 else 1)) &&& 3)

/-!
Spec-side definitions for claim C2, written from the words of the claim:
the number of the exact rational thresholds k*q/4 (resp. k*q/2) that
y strictly exceeds, and the two candidate-vector formulas of the claim.
-/

/-- Number of thresholds among q/4, 3q/4, 5q/4, 7q/4 that y exceeds
(y > k*q/4 as rationals, i.e. 4*y > k*q). -/
def specC2_v0count (y : ℤ) : Nat :=
  (if (PARAMETER_Q : ℤ) < 4*y then 1 else 0) +
  (if 3*(PARAMETER_Q : ℤ) < 4*y then 1 else 0) +
  (if 5*(PARAMETER_Q : ℤ) < 4*y then 1 else 0) +
  (if 7*(PARAMETER_Q : ℤ) < 4*y then 1 else 0)

/-- Number of thresholds among q/2, q, 3q/2 that y exceeds. -/
def specC2_v1count (y : ℤ) : Nat :=
  (if (PARAMETER_Q : ℤ) < 2*y then 1 else 0) +
  (if 2*(PARAMETER_Q : ℤ) < 2*y then 1 else 0) +
  (if 3*(PARAMETER_Q : ℤ) < 2*y then 1 else 0)

/-- Value of v0[j] as asserted by claim C2: 4 minus the number of
thresholds exceeded. -/
def specC2_v0claim (y : ℤ) : Nat := 4 - specC2_v0count y

/-- Value of v1[j] as asserted by claim C2: 3 minus the number of
thresholds exceeded. -/
def specC2_v1claim (y : ℤ) : Nat := 3 - specC2_v1count y

/-- Claim C2 counterexample. Take the canonical group coefficient x = 0
with pseudorandom bit b = 0, so y = 0.  The claim asserts v0[j] = 4 -
(number of thresholds y exceeds) = 4 and v1[j] = 3, but HelpRec computes
v0[j] = 0 and v1[j] = 0 (y = 0 is below every threshold, and each of the
mask bits decrements the initial 4 resp. 3). -/
theorem C2_counterexample :
    helpRecY 0 0 = 0 ∧ v0lane (helpRecY 0 0) = 0 ∧ v1lane (helpRecY 0 0) = 0 ∧
    specC2_v0claim (2*(0:ℤ) - 0) = 4 ∧ specC2_v1claim (2*(0:ℤ) - 0) = 3 ∧
    ¬(v0lane (helpRecY 0 0) = specC2_v0claim (2*(0:ℤ) - 0) ∧
      v1lane (helpRecY 0 0) = specC2_v1claim (2*(0:ℤ) - 0)) := by
  refine ⟨by decide, by decide, by decide, by decide, by decide, ?_⟩
  intro h
  have h1 : (0 : Nat) = 4 := by
    have := h.1
    revert this
    decide
  omega

/-- Threshold mask bit: for canonical x and bit b, the logical shift by
31 of the uint32 value y - T is 1 exactly when y < T over the integers. -/
lemma msb32_u32sub_threshold (x b T : Nat) (hx : x < PARAMETER_Q) (hb : b ≤ 1)
    (hT : 0 < T) (hT2 : T < 2^31) :
    msb32 (u32sub (helpRecY x b) T) = if 2*(x:ℤ) - b < T then 1 else 0 := by
  simp only [helpRecY, u32sub, msb32, PARAMETER_Q] at *
  split <;> omega

/-- HelpRec computes v0[j] as the number of integer thresholds that y
meets or exceeds, equivalently, since the integer thresholds are the
ceilings of the odd quarters of q, the number of exact thresholds k*q/4
that y strictly exceeds. -/
lemma v0lane_eq_count (x b : Nat) (hx : x < PARAMETER_Q) (hb : b ≤ 1) :
    v0lane (helpRecY x b) = specC2_v0count (2*(x:ℤ) - b) := by
  unfold v0lane specC2_v0count
  rw [msb32_u32sub_threshold x b PARAMETER_Q4 hx hb (by decide) (by decide),
      msb32_u32sub_threshold x b PARAMETER_3Q4 hx hb (by decide) (by decide),
      msb32_u32sub_threshold x b PARAMETER_5Q4 hx hb (by decide) (by decide),
      msb32_u32sub_threshold x b PARAMETER_7Q4 hx hb (by decide) (by decide)]
  simp only [PARAMETER_Q, PARAMETER_Q4, PARAMETER_3Q4, PARAMETER_5Q4, PARAMETER_7Q4]
  split <;> split <;> split <;> split <;> split <;> split <;> split <;> split <;> omega

/-- HelpRec computes v1[j] as the number of integer thresholds that y
meets or exceeds; note that at the middle threshold the integer
comparison y >= q also counts y = q, which the strict rational reading
would not. -/
lemma v1lane_eq_count (x b : Nat) (hx : x < PARAMETER_Q) (hb : b ≤ 1) :
    v1lane (helpRecY x b) =
      (if (PARAMETER_Q2 : ℤ) ≤ 2*(x:ℤ) - b then 1 else 0) +
      (if (PARAMETER_Q : ℤ) ≤ 2*(x:ℤ) - b then 1 else 0) +
      (if (PARAMETER_3Q2 : ℤ) ≤ 2*(x:ℤ) - b then 1 else 0) := by
  unfold v1lane
  rw [msb32_u32sub_threshold x b PARAMETER_Q2 hx hb (by decide) (by decide),
      msb32_u32sub_threshold x b PARAMETER_Q hx hb (by decide) (by decide),
      msb32_u32sub_threshold x b PARAMETER_3Q2 hx hb (by decide) (by decide)]
  simp only [PARAMETER_Q, PARAMETER_Q2, PARAMETER_3Q2]
  split <;> split <;> split <;> split <;> split <;> split <;> omega

lemma absI32_u32sub_eq (e c : Nat) (he : e ≤ 2^20) (hc : c ≤ 2^20) :
    absI32 (u32sub e c) = ((e:ℤ) - c).natAbs := by
  simp only [absI32, u32sub]
  rcases le_or_lt c e with h1 | h1
  · rw [if_pos (by omega)]
    omega
  · rw [if_neg (by omega)]
    omega

/-- The norm summand of HelpRec is the integer absolute value
|2y - q*v0[j]|. -/
lemma normLane_eq_abs (x b v : Nat) (hx : x < PARAMETER_Q) (hb : b ≤ 1) (hv : v ≤ 4) :
    normLane (helpRecY x b) v =
      (2*(2*(x:ℤ) - b) - (PARAMETER_Q : ℤ) * v).natAbs := by
  have hx' : x < 12289 := hx
  rcases le_or_lt b (2*x) with hc | hc
  · have hy : helpRecY x b = 2*x - b := by
      simp only [helpRecY, u32sub]
      omega
    rw [hy]
    have h1 : 2*(2*x - b) % 2^32 = 2*(2*x - b) := Nat.mod_eq_of_lt (by omega)
    calc normLane (2*x - b) v
        = absI32 (u32sub (2*(2*x - b)) (PARAMETER_Q * v)) := by
          simp only [normLane]
          rw [h1]
      _ = (((2*(2*x - b) : Nat) : ℤ) - ((PARAMETER_Q * v : Nat) : ℤ)).natAbs :=
          absI32_u32sub_eq _ _ (by omega) (by simp only [PARAMETER_Q]; omega)
      _ = (2*(2*(x:ℤ) - b) - (PARAMETER_Q : ℤ) * v).natAbs := by
          congr 1
          simp only [PARAMETER_Q]
          omega
  · have hb1 : b = 1 := by omega
    have hx0 : x = 0 := by omega
    subst hb1
    subst hx0
    have hy : helpRecY 0 1 = 2^32 - 1 := by decide
    have hl : normLane (2^32 - 1) v = 12289 * v + 2 := by
      interval_cases v <;> decide
    rw [hy, hl]
    simp only [PARAMETER_Q]
    omega

lemma v0lane_le (y : Nat) : v0lane y ≤ 4 := by
  unfold v0lane
  omega

/-- Claim C2 amended theorem. For a canonical group (coefficients in
[0,q)) and pseudorandom bit b, writing y_j = 2*x_j - b:
the candidate v0[j] equals the NUMBER of thresholds among q/4, 3q/4,
5q/4, 7q/4 that y_j exceeds (not 4 minus that number), the candidate
v1[j] equals the number of integer thresholds among 6145, 12289, 18434
that y_j meets or exceeds (not 3 minus that number; at the middle
threshold the code also counts y_j = q exactly), and the group keeps v0
exactly when the norm = sum of |2*y_j - q*v0[j]| is less than q,
otherwise v1. -/
theorem C2_HelpRec_candidates (x0 x1 x2 x3 b : Nat)
    (h0 : x0 < PARAMETER_Q) (h1 : x1 < PARAMETER_Q)
    (h2 : x2 < PARAMETER_Q) (h3 : x3 < PARAMETER_Q) (hb : b ≤ 1) :
    (v0lane (helpRecY x0 b) = specC2_v0count (2*(x0:ℤ) - b) ∧
     v0lane (helpRecY x1 b) = specC2_v0count (2*(x1:ℤ) - b) ∧
     v0lane (helpRecY x2 b) = specC2_v0count (2*(x2:ℤ) - b) ∧
     v0lane (helpRecY x3 b) = specC2_v0count (2*(x3:ℤ) - b)) ∧
    (v1lane (helpRecY x0 b) =
       (if (PARAMETER_Q2 : ℤ) ≤ 2*(x0:ℤ) - b then 1 else 0) +
       (if (PARAMETER_Q : ℤ) ≤ 2*(x0:ℤ) - b then 1 else 0) +
       (if (PARAMETER_3Q2 : ℤ) ≤ 2*(x0:ℤ) - b then 1 else 0)) ∧
    (helpRecSelV0 x0 x1 x2 x3 b = true ↔
      (2*(2*(x0:ℤ) - b) - (PARAMETER_Q : ℤ) * v0lane (helpRecY x0 b)).natAbs +
      (2*(2*(x1:ℤ) - b) - (PARAMETER_Q : ℤ) * v0lane (helpRecY x1 b)).natAbs +
      (2*(2*(x2:ℤ) - b) - (PARAMETER_Q : ℤ) * v0lane (helpRecY x2 b)).natAbs +
      (2*(2*(x3:ℤ) - b) - (PARAMETER_Q : ℤ) * v0lane (helpRecY x3 b)).natAbs
        < PARAMETER_Q) := by
  refine ⟨⟨v0lane_eq_count x0 b h0 hb, v0lane_eq_count x1 b h1 hb,
    v0lane_eq_count x2 b h2 hb, v0lane_eq_count x3 b h3 hb⟩,
    v1lane_eq_count x0 b h0 hb, ?_⟩
  have e0 := normLane_eq_abs x0 b (v0lane (helpRecY x0 b)) h0 hb (v0lane_le _)
  have e1 := normLane_eq_abs x1 b (v0lane (helpRecY x1 b)) h1 hb (v0lane_le _)
  have e2 := normLane_eq_abs x2 b (v0lane (helpRecY x2 b)) h2 hb (v0lane_le _)
  have e3 := normLane_eq_abs x3 b (v0lane (helpRecY x3 b)) h3 hb (v0lane_le _)
  have hb0 : normLane (helpRecY x0 b) (v0lane (helpRecY x0 b)) ≤ 5*PARAMETER_Q := by
    rw [e0]
    have := v0lane_le (helpRecY x0 b)
    simp only [PARAMETER_Q] at *
    omega
  have hb1 : normLane (helpRecY x1 b) (v0lane (helpRecY x1 b)) ≤ 5*PARAMETER_Q := by
    rw [e1]
    have := v0lane_le (helpRecY x1 b)
    simp only [PARAMETER_Q] at *
    omega
  have hb2 : normLane (helpRecY x2 b) (v0lane (helpRecY x2 b)) ≤ 5*PARAMETER_Q := by
    rw [e2]
    have := v0lane_le (helpRecY x2 b)
    simp only [PARAMETER_Q] at *
    omega
  have hb3 : normLane (helpRecY x3 b) (v0lane (helpRecY x3 b)) ≤ 5*PARAMETER_Q := by
    rw [e3]
    have := v0lane_le (helpRecY x3 b)
    simp only [PARAMETER_Q] at *
    omega
  simp only [helpRecSelV0, helpRecNormSum, decide_eq_true_eq]
  rw [← e0, ← e1, ← e2, ← e3]
  simp only [u32sub, PARAMETER_Q] at *
  omega

/-- Claim C2 witness: the amended theorem applied to the concrete
canonical group (6144, 1, 12288, 6145) with bit 1. -/
theorem C2_HelpRec_candidates_witness :
    (6144 < PARAMETER_Q ∧ 1 < PARAMETER_Q ∧ 12288 < PARAMETER_Q ∧
     6145 < PARAMETER_Q ∧ 1 ≤ 1) ∧
    (v0lane (helpRecY 6144 1) = specC2_v0count (2*(6144:ℤ) - 1) ∧
     v0lane (helpRecY 1 1) = specC2_v0count (2*(1:ℤ) - 1) ∧
     v0lane (helpRecY 12288 1) = specC2_v0count (2*(12288:ℤ) - 1) ∧
     v0lane (helpRecY 6145 1) = specC2_v0count (2*(6145:ℤ) - 1)) :=
  ⟨⟨by decide, by decide, by decide, by decide, le_refl 1⟩,
   (C2_HelpRec_candidates 6144 1 12288 6145 1 (by decide) (by decide)
     (by decide) (by decide) (le_refl 1)).1⟩


/-!
Low-density decoding LDDecode and Rec (kex.c lines 286-327).
-/

/-- Int32 value of a uint32 bit pattern. -/
def i32 (w : Nat) : ℤ :=
  if w % 2^32 < 2^31 then (w % 2^32 : ℤ) else (w % 2^32 : ℤ) - 2^32

/-- Lane value t = 8*x - m*PARAMETER_Q of Rec (kex.c lines 316-319, with
m the hint combination 2*rvec[i+256j] + rvec[i+768], or rvec[i+768] for
the last lane): computed in uint32 and reinterpreted as int32 by the
(int32_t*) cast at the LDDecode call. -/
def recT (x m : Nat) : ℤ :=
  i32 ((8*x % 2^32 + 2^32 - (m * PARAMETER_Q) % 2^32) % 2^32)

/-- One lane of LDDecode (kex.c lines 292-298): value is 8q for negative
t and -8q otherwise (the mask1/XOR combination), it is added exactly when
|t| strictly exceeds 4q (the mask2 combination), and the lane contributes
the absolute value of the adjusted t. -/
def ldLane (t : ℤ) : Nat :=
  (t + (if 4*(PARAMETER_Q:ℤ) < (t.natAbs : ℤ)
        then (if t < 0 then 8*(PARAMETER_Q:ℤ) else -(8*(PARAMETER_Q:ℤ)))
        else 0)).natAbs

/-- LDDecode (kex.c lines 286-301): ((8q - norm) >> 31) XOR 1 on the
unsigned norm, i.e. 1 exactly when the accumulated norm is at most 8q. -/
def LDDecode (t0 t1 t2 t3 : ℤ) : Nat :=
  if 8*PARAMETER_Q < ldLane t0 + ldLane t1 + ldLane t2 + ldLane t3 then 0 else 1

/-- Shared-secret bit of group i as computed by Rec (kex.c lines 315-321). -/
def recBit (x r : Nat → Nat) (i : Nat) : Nat :=
  LDDecode (recT (x i) (2*r i + r (i+768)))
           (recT (x (i+256)) (2*r (i+256) + r (i+768)))
           (recT (x (i+512)) (2*r (i+512) + r (i+768)))
           (recT (x (i+768)) (r (i+768)))

/-- Byte k of the 32-byte shared secret produced by Rec (kex.c lines
312-322): bit (i mod 8) of byte (i div 8) is the group-i LDDecode output;
the OR-accumulation of the eight disjoint bits is their weighted sum. -/
def RecKey (x r : Nat → Nat) : Nat → Nat :=
  fun k =>
    recBit x r (8*k) + recBit x r (8*k+1) * 2 + recBit x r (8*k+2) * 4 +
    recBit x r (8*k+3) * 8 + recBit x r (8*k+4) * 16 + recBit x r (8*k+5) * 32 +
    recBit x r (8*k+6) * 64 + recBit x r (8*k+7) * 128

/-- Claim-side distance of one lane to the nearest multiple of 8q. -/
def dist8qZ (t : ℤ) : Nat :=
  min (t % (8*(PARAMETER_Q:ℤ))).toNat (8*(PARAMETER_Q:ℤ) - t % (8*(PARAMETER_Q:ℤ))).toNat

/-- Claim-side predicate of C3: some point of the scaled lattice 8q*D4
(points 8q*c for integer vectors c of even coordinate sum) lies at l1
distance strictly below 8q from t. -/
def D4distLT (t0 t1 t2 t3 : ℤ) : Prop :=
  ∃ c0 c1 c2 c3 : ℤ, (c0 + c1 + c2 + c3) % 2 = 0 ∧
    (t0 - 8*(PARAMETER_Q:ℤ)*c0).natAbs + (t1 - 8*(PARAMETER_Q:ℤ)*c1).natAbs +
    (t2 - 8*(PARAMETER_Q:ℤ)*c2).natAbs + (t3 - 8*(PARAMETER_Q:ℤ)*c3).natAbs
      < 8*PARAMETER_Q

/-- Claim C3 counterexample. From the canonical group x = (0,0,0,0) with
hints (2,2,0,0) (last lane hint r[i+768] = 0), Rec builds
t = (-4q, -4q, 0, 0).  Its l1 distance to every point of 8q*D4 (and
indeed of 8q*Z^4) is at least 8q, so the claim requires LDDecode to
return 0, but LDDecode returns 1: its norm is exactly 8q and the code
tests norm <= 8q, not a strict distance bound below 8q. -/
theorem C3_counterexample :
    recT 0 (2*2+0) = -4*(PARAMETER_Q:ℤ) ∧ recT 0 (2*0+0) = 0 ∧
    LDDecode (recT 0 (2*2+0)) (recT 0 (2*2+0)) (recT 0 (2*0+0)) (recT 0 (2*0+0)) = 1 ∧
    ¬ D4distLT (recT 0 (2*2+0)) (recT 0 (2*2+0)) (recT 0 (2*0+0)) (recT 0 (2*0+0)) := by
  have e1 : recT 0 (2*2+0) = -4*(PARAMETER_Q:ℤ) := by decide
  have e2 : recT 0 (2*0+0) = 0 := by decide
  refine ⟨e1, e2, by decide, ?_⟩
  rintro ⟨c0, c1, c2, c3, hpar, hlt⟩
  rw [e1, e2] at hlt
  have h0 : ∀ c : ℤ, 4*PARAMETER_Q ≤ ((-4*(PARAMETER_Q:ℤ)) - 8*(PARAMETER_Q:ℤ)*c).natAbs := by
    intro c
    simp only [PARAMETER_Q]
    rcases le_or_lt 0 c with hc | hc <;> omega
  have hb0 := h0 c0
  have hb1 := h0 c1
  simp only [PARAMETER_Q] at hb0 hb1 hlt
  omega

/-- For canonical x and hint combination m at most 9, the uint32 lane
value reinterpreted as int32 is exactly 8x - m*q. -/
lemma recT_eq (x m : Nat) (hx : x < PARAMETER_Q) (hm : m ≤ 9) :
    recT x m = 8*(x:ℤ) - m*(PARAMETER_Q:ℤ) := by
  have hx' : x < 12289 := hx
  simp only [recT, i32, PARAMETER_Q]
  split <;> omega

/-- For t in the int32 range produced by Rec, the LDDecode lane value is
the distance from t to the nearest multiple of 8q. -/
lemma ldLane_eq_dist (t : ℤ) (h1 : -9*(PARAMETER_Q:ℤ) ≤ t) (h2 : t < 8*(PARAMETER_Q:ℤ)) :
    ldLane t = dist8qZ t := by
  simp only [ldLane, dist8qZ, PARAMETER_Q] at *
  split
  · split <;> omega
  · omega

/-- LDDecode on a Rec-produced vector returns 1 exactly when the sum
over lanes of the distance to the nearest multiple of 8q is at most 8q. -/
lemma LDDecode_eq_one_iff (x0 x1 x2 x3 r0 r1 r2 r3 : Nat)
    (hx0 : x0 < PARAMETER_Q) (hx1 : x1 < PARAMETER_Q)
    (hx2 : x2 < PARAMETER_Q) (hx3 : x3 < PARAMETER_Q)
    (hr0 : r0 ≤ 3) (hr1 : r1 ≤ 3) (hr2 : r2 ≤ 3) (hr3 : r3 ≤ 3) :
    LDDecode (recT x0 (2*r0+r3)) (recT x1 (2*r1+r3))
             (recT x2 (2*r2+r3)) (recT x3 r3) = 1 ↔
      dist8qZ (recT x0 (2*r0+r3)) + dist8qZ (recT x1 (2*r1+r3)) +
      dist8qZ (recT x2 (2*r2+r3)) + dist8qZ (recT x3 r3) ≤ 8*PARAMETER_Q := by
  have e0 := recT_eq x0 (2*r0+r3) hx0 (by omega)
  have e1 := recT_eq x1 (2*r1+r3) hx1 (by omega)
  have e2 := recT_eq x2 (2*r2+r3) hx2 (by omega)
  have e3 := recT_eq x3 r3 hx3 (by omega)
  have d0 : ldLane (recT x0 (2*r0+r3)) = dist8qZ (recT x0 (2*r0+r3)) := by
    apply ldLane_eq_dist
    · rw [e0]; simp only [PARAMETER_Q] at *; omega
    · rw [e0]; simp only [PARAMETER_Q] at *; omega
  have d1 : ldLane (recT x1 (2*r1+r3)) = dist8qZ (recT x1 (2*r1+r3)) := by
    apply ldLane_eq_dist
    · rw [e1]; simp only [PARAMETER_Q] at *; omega
    · rw [e1]; simp only [PARAMETER_Q] at *; omega
  have d2 : ldLane (recT x2 (2*r2+r3)) = dist8qZ (recT x2 (2*r2+r3)) := by
    apply ldLane_eq_dist
    · rw [e2]; simp only [PARAMETER_Q] at *; omega
    · rw [e2]; simp only [PARAMETER_Q] at *; omega
  have d3 : ldLane (recT x3 r3) = dist8qZ (recT x3 r3) := by
    apply ldLane_eq_dist
    · rw [e3]; simp only [PARAMETER_Q] at *; omega
    · rw [e3]; simp only [PARAMETER_Q] at *; omega
  simp only [LDDecode, d0, d1, d2, d3]
  split
  · constructor
    · intro h
      exact absurd h (by omega)
    · intro h
      omega
  · constructor
    · intro _
      omega
    · intro _
      rfl

/-- Claim C3 amended theorem. For every 4-vector t produced inside Rec
from canonical x (coefficients in [0,q)) and hint entries in {0,1,2,3},
LDDecode returns 1 exactly when the l1 distance from t to the nearest
point of the scaled lattice 8q*Z^4 (the sum over lanes of the distance to
the nearest multiple of 8q) is at most 8q, and 0 otherwise; in
particular it returns 1, not 0, when that distance equals 8q. -/
theorem C3_LDDecode_dist (x0 x1 x2 x3 r0 r1 r2 r3 : Nat)
    (hx0 : x0 < PARAMETER_Q) (hx1 : x1 < PARAMETER_Q)
    (hx2 : x2 < PARAMETER_Q) (hx3 : x3 < PARAMETER_Q)
    (hr0 : r0 ≤ 3) (hr1 : r1 ≤ 3) (hr2 : r2 ≤ 3) (hr3 : r3 ≤ 3) :
    LDDecode (recT x0 (2*r0+r3)) (recT x1 (2*r1+r3))
             (recT x2 (2*r2+r3)) (recT x3 r3) = 1 ↔
      dist8qZ (recT x0 (2*r0+r3)) + dist8qZ (recT x1 (2*r1+r3)) +
      dist8qZ (recT x2 (2*r2+r3)) + dist8qZ (recT x3 r3) ≤ 8*PARAMETER_Q :=
  LDDecode_eq_one_iff x0 x1 x2 x3 r0 r1 r2 r3 hx0 hx1 hx2 hx3 hr0 hr1 hr2 hr3

/-- Claim C3 witness: the amended theorem applied to the concrete group
x = (1537, 0, 6144, 12288) with hints (1, 0, 2, 3). -/
theorem C3_LDDecode_dist_witness :
    (1537 < PARAMETER_Q ∧ 0 < PARAMETER_Q ∧ 6144 < PARAMETER_Q ∧
     12288 < PARAMETER_Q ∧ (1:Nat) ≤ 3 ∧ (0:Nat) ≤ 3 ∧ (2:Nat) ≤ 3 ∧ (3:Nat) ≤ 3) ∧
    (LDDecode (recT 1537 (2*1+3)) (recT 0 (2*0+3))
              (recT 6144 (2*2+3)) (recT 12288 3) = 1 ↔
       dist8qZ (recT 1537 (2*1+3)) + dist8qZ (recT 0 (2*0+3)) +
       dist8qZ (recT 6144 (2*2+3)) + dist8qZ (recT 12288 3) ≤ 8*PARAMETER_Q) :=
  ⟨⟨by decide, by decide, by decide, by decide, by decide, by decide, by decide, by decide⟩,
   C3_LDDecode_dist 1537 0 6144 12288 1 0 2 3 (by decide) (by decide) (by decide)
     (by decide) (by decide) (by decide) (by decide) (by decide)⟩


/-!
Noise sampler get_error (kex.c lines 332-373) and the stream-oracle
nonces.  The SWAR accumulation of the source adds, per byte lane L of
acc1, the eight bits of byte L of word i of the stream and the four low
bits of byte L of word i+512 (for acc2: word i+256 and the high nibble);
with little-endian 4-byte words, byte L of word i is stream[4i+L], and
e[2i] = lane0 - lane1, e[2i+1] = lane2 - lane3, so coefficient k < 512
uses the byte pair (2k, 2k+1).
-/

/-- Population count of a byte. -/
def popc8 (b : Nat) : Nat :=
  (b &&& 1) + (b >>> 1 &&& 1) + (b >>> 2 &&& 1) + (b >>> 3 &&& 1) +
  (b >>> 4 &&& 1) + (b >>> 5 &&& 1) + (b >>> 6 &&& 1) + (b >>> 7 &&& 1)

/-- Byte-lane accumulator acc1 of get_error: bits of stream byte m plus
the low nibble of stream byte 2048+m. -/
def sampleAcc1 (stream : Nat → Nat) (m : Nat) : Nat :=
  popc8 (stream m) + popc8 (stream (2048 + m) &&& 15)

/-- Byte-lane accumulator acc2 of get_error: bits of stream byte 1024+m
plus the high nibble of stream byte 2048+m. -/
def sampleAcc2 (stream : Nat → Nat) (m : Nat) : Nat :=
  popc8 (stream (1024 + m)) + popc8 (stream (2048 + m) >>> 4 &&& 15)

/-- Signed error coefficients folded from the 3n stream bytes
(kex.c get_error lines 352-369). -/
def sample (stream : Nat → Nat) : Nat → ℤ :=
  fun k =>
    if k < 512 then
      (sampleAcc1 stream (2*k) : ℤ) - sampleAcc1 stream (2*k+1)
    else
      (sampleAcc2 stream (2*(k - 512)) : ℤ) - sampleAcc2 stream (2*(k - 512)+1)

/-- Stream nonce of get_error (kex.c lines 338, 342): nce[8] = {0},
then nce[0] = (unsigned char) nonce. -/
def get_error_nonce (nonce : Nat) : List Nat :=
  [nonce % 256, 0, 0, 0, 0, 0, 0, 0]

/-- Stream nonce of HelpRec (kex.c lines 230, 234): nce[8] = {0},
then nce[1] = (unsigned char) nonce. -/
def HelpRec_nonce (nonce : Nat) : List Nat :=
  [0, nonce % 256, 0, 0, 0, 0, 0, 0]

/-!
Oracles and the functions of the repository that src/ only declares,
modelled from the spec (section 6 for the oracles, sections 4.1-4.3 for
the arithmetic primitives).
-/

/-- Modelled from the spec: the three oracle contracts of section 6.
Each call yields a status and output bytes or coefficients.  The
random-bytes oracle is stateful in any real embedding; the model passes
the index of the call within the protocol operation so that distinct
draws may differ. -/
structure Oracles where
  randomBytes : Nat → Nat → CRYPTO_STATUS × (Nat → Nat)
  xof : (Nat → Nat) → CRYPTO_STATUS × (Nat → Nat)
  stream : (Nat → Nat) → List Nat → Nat → CRYPTO_STATUS × (Nat → Nat)

/-- Modelled from the spec: correction (section 4.1) conditionally adds
q to each coefficient whose sign bit is set, yielding canonical [0, q). -/
def correction (p : Nat → ℤ) : Nat → ℤ :=
  fun k => if p k < 0 then p k + PARAMETER_Q else p k

/-- Modelled from the spec: two_reduce12289 (section 4.1) reduces each
coefficient to a narrow range; modelled as the representative in [0, q). -/
def two_reduce12289 (p : Nat → ℤ) : Nat → ℤ :=
  fun k => p k % (PARAMETER_Q : ℤ)

/-- Modelled from the spec: smul (section 4.1) multiplies each
coefficient by a small constant modulo q. -/
def smul (p : Nat → ℤ) (c : ℤ) : Nat → ℤ :=
  fun k => p k * c % (PARAMETER_Q : ℤ)

/-- Sum of f 0 + f 1 + ... + f (n-1). -/
def sumTo (f : Nat → ℤ) : Nat → ℤ
  | 0 => 0
  | n+1 => sumTo f n + f n

/-- Negacyclic convolution: coefficient k of the product of two
polynomials in the ring Z[x]/(x^1024 + 1) (spec sections 2 and 3: all
polynomial products live in R_q = Z_q[x]/(x^n+1) with n = 1024). -/
def negaConv (a b2 : Nat → ℤ) (k : Nat) : ℤ :=
  sumTo (fun j => if j ≤ k then a j * b2 (k - j) else -(a j * b2 (1024 + k - j))) 1024

/-- Modelled from the spec: pmul (section 4.3) multiplies in the NTT
domain.  Section 4.2 fixes the transform itself only up to the
round-trip contract and it is modelled below as the identity placeholder,
so the NTT-domain product is modelled as what the composite
forward-multiply-inverse computes: the ring product of R_q (spec
sections 2 and 3), reduced modulo q. -/
def pmul (a b2 : Nat → ℤ) : Nat → ℤ :=
  fun k => negaConv a b2 k % (PARAMETER_Q : ℤ)

/-- Modelled from the spec: pmuladd (section 4.3), c = a*b + e with the
product as in pmul. -/
def pmuladd (a b2 e : Nat → ℤ) : Nat → ℤ :=
  fun k => (negaConv a b2 k + e k) % (PARAMETER_Q : ℤ)

/-- Modelled from the spec: the forward NTT.  Section 4.2 fixes as the
external contract only that forward followed by inverse is the identity;
the transform itself is not part of src/, and it is modelled as the
identity placeholder, with the ring multiplication carried by pmul and
pmuladd so that the composite transform-multiply-inverse agrees with the
spec's data flow (section 2). -/
def NTT_CT_std2rev_12289 (p : Nat → ℤ) : Nat → ℤ := p

/-- Modelled from the spec: the inverse NTT, the inverse of the forward
map under the section 4.2 contract. -/
def INTT_GS_rev2std_12289 (p : Nat → ℤ) : Nat → ℤ := p

/-- The all-zero polynomial left by clear_words. -/
def zeroPoly : Nat → ℤ := fun _ => 0

/-- The all-zero byte buffer left by clear_words. -/
def zeroBytes : Nat → Nat := fun _ => 0

/-- get_error (kex.c lines 332-373) with the caller's e buffer threaded
explicitly: expand (seed, byte-0 nonce) through the stream oracle and
fold the bytes into the coefficients; on stream failure return the
status, with the e buffer unchanged (get_error clears only its local
stream buffer). -/
def get_error (O : Oracles) (e0 : Nat → ℤ) (seed : Nat → Nat) (nonce : Nat) :
    CRYPTO_STATUS × (Nat → ℤ) :=
  let r := O.stream seed (get_error_nonce nonce) (3*PARAMETER_N)
  if r.1 = CRYPTO_SUCCESS then (r.1, sample r.2) else (r.1, e0)

/-- generate_a (kex.c lines 379-383): the XOF applied to the seed. -/
def generate_a (O : Oracles) (seed : Nat → Nat) : CRYPTO_STATUS × (Nat → Nat) :=
  O.xof seed

/-- The full hint polynomial of HelpRec (kex.c lines 245-277): group i
uses bit i of the 32 random bytes, the same bit for all four lanes. -/
def helpRecPoly (x : Nat → Nat) (bits : Nat → Nat) : Nat → Nat :=
  fun idx =>
    let i := idx % 256
    let bit := bits (i / 8) >>> (i % 8) &&& 1
    let g := helpRecGroup (x i) (x (i+256)) (x (i+512)) (x (i+768)) bit
    if idx < 256 then g.1
    else if idx < 512 then g.2.1
    else if idx < 768 then g.2.2.1
    else g.2.2.2

/-- HelpRec (kex.c lines 227-281) with the caller's rvec buffer threaded
explicitly: request 32 stream bytes under the byte-1 nonce; on failure
propagate the status with rvec unchanged, otherwise produce the hint. -/
def HelpRec (O : Oracles) (x : Nat → Nat) (rvec0 : Nat → Nat)
    (seed : Nat → Nat) (nonce : Nat) : CRYPTO_STATUS × (Nat → Nat) :=
  let r := O.stream seed (HelpRec_nonce nonce) 32
  if r.1 = CRYPTO_SUCCESS then (r.1, helpRecPoly x r.2) else (r.1, rvec0)

/-!
Protocol orchestration (kex.c lines 390-531).  Each C out-parameter and
each sensitive local buffer is threaded explicitly: the caller passes its
prior (garbage) contents and the result records its contents at return,
so that claims about unwritten and about zeroed buffers are statements
about the model.  The C tests are `if (Status != CRYPTO_SUCCESS)`
followed by return or goto cleanup; the model writes the equivalent
positive conditional.
-/

/-- Result of KeyGeneration_A: the status and the final contents of the
two out-parameters and of the sensitive locals e and error_seed. -/
structure KGResult where
  status : CRYPTO_STATUS
  SecretKeyA : Nat → ℤ
  PublicKeyA : Nat → Nat
  e : Nat → ℤ
  error_seed : Nat → Nat

/-- KeyGeneration_A (kex.c lines 390-432).  The first random_bytes
failure returns directly, before the cleanup label; every later failure
and the success path run the cleanup, which zeroes e and error_seed
(lines 427-429) and nothing else. -/
def KeyGeneration_A (O : Oracles) (SecretKeyA0 : Nat → ℤ) (PublicKeyA0 : Nat → Nat)
    (e0 : Nat → ℤ) (error_seed0 : Nat → Nat) : KGResult :=
  let r0 := O.randomBytes 0 SEED_BYTES
  if r0.1 = CRYPTO_SUCCESS then
    let seed := r0.2
    let r1 := O.randomBytes 1 ERROR_SEED_BYTES
    if r1.1 = CRYPTO_SUCCESS then
      let error_seed := r1.2
      let ra := generate_a O seed
      if ra.1 = CRYPTO_SUCCESS then
        let a := ra.2
        let g0 := get_error O SecretKeyA0 error_seed 0
        if g0.1 = CRYPTO_SUCCESS then
          let g1 := get_error O e0 error_seed 1
          if g1.1 = CRYPTO_SUCCESS then
            let sN := NTT_CT_std2rev_12289 g0.2
            let eN := smul (NTT_CT_std2rev_12289 g1.2) 3
            let b2 := correction (pmuladd (fun k => (a k : ℤ)) sN eN)
            ⟨CRYPTO_SUCCESS, sN, encode_A (fun k => (b2 k).toNat) seed,
             zeroPoly, zeroBytes⟩
          else ⟨g1.1, g0.2, PublicKeyA0, zeroPoly, zeroBytes⟩
        else ⟨g0.1, g0.2, PublicKeyA0, zeroPoly, zeroBytes⟩
      else ⟨ra.1, SecretKeyA0, PublicKeyA0, zeroPoly, zeroBytes⟩
    else ⟨r1.1, SecretKeyA0, PublicKeyA0, zeroPoly, zeroBytes⟩
  else ⟨r0.1, SecretKeyA0, PublicKeyA0, e0, error_seed0⟩

/-- Status of the first failing oracle call of KeyGeneration_A, in call
order, or success when all five calls succeed. -/
def KG_firstFailure (O : Oracles) : CRYPTO_STATUS :=
  let r0 := O.randomBytes 0 SEED_BYTES
  if r0.1 = CRYPTO_SUCCESS then
    let r1 := O.randomBytes 1 ERROR_SEED_BYTES
    if r1.1 = CRYPTO_SUCCESS then
      let ra := generate_a O r0.2
      if ra.1 = CRYPTO_SUCCESS then
        let g0 := O.stream r1.2 (get_error_nonce 0) (3*PARAMETER_N)
        if g0.1 = CRYPTO_SUCCESS then
          let g1 := O.stream r1.2 (get_error_nonce 1) (3*PARAMETER_N)
          if g1.1 = CRYPTO_SUCCESS then CRYPTO_SUCCESS else g1.1
        else g0.1
      else ra.1
    else r1.1
  else r0.1

/-- Result of SecretAgreement_B: the status and the final contents of the
two out-parameters. -/
structure SABResult where
  status : CRYPTO_STATUS
  SharedSecretB : Nat → Nat
  PublicKeyB : Nat → Nat

/-- SecretAgreement_B (kex.c lines 439-502).  PublicKeyA is decoded
unconditionally; SharedSecretB and PublicKeyB are written only after the
last oracle call (HelpRec) has succeeded; every failure jumps to the
cleanup, which zeroes only locals. -/
def SecretAgreement_B (O : Oracles) (PublicKeyA : Nat → Nat)
    (SharedSecretB0 PublicKeyB0 : Nat → Nat) (skB0 e0 : Nat → ℤ)
    (rvec0 : Nat → Nat) : SABResult :=
  let pk_A := (decode_A PublicKeyA).1
  let seed := (decode_A PublicKeyA).2
  let r1 := O.randomBytes 0 ERROR_SEED_BYTES
  if r1.1 = CRYPTO_SUCCESS then
    let error_seed := r1.2
    let ra := generate_a O seed
    if ra.1 = CRYPTO_SUCCESS then
      let a := ra.2
      let g0 := get_error O skB0 error_seed 0
      if g0.1 = CRYPTO_SUCCESS then
        let g1 := get_error O e0 error_seed 1
        if g1.1 = CRYPTO_SUCCESS then
          let sk_B := NTT_CT_std2rev_12289 g0.2
          let e1 := smul (NTT_CT_std2rev_12289 g1.2) 3
          let u := correction (pmuladd (fun k => (a k : ℤ)) sk_B e1)
          let g2 := get_error O e0 error_seed 2
          if g2.1 = CRYPTO_SUCCESS then
            let e2 := smul (NTT_CT_std2rev_12289 g2.2) 81
            let v := correction (two_reduce12289 (INTT_GS_rev2std_12289
              (pmuladd (fun k => (pk_A k : ℤ)) sk_B e2)))
            let hr := HelpRec O (fun k => (v k).toNat) rvec0 error_seed 3
            if hr.1 = CRYPTO_SUCCESS then
              ⟨CRYPTO_SUCCESS, RecKey (fun k => (v k).toNat) hr.2,
               encode_B (fun k => (u k).toNat) hr.2⟩
            else ⟨hr.1, SharedSecretB0, PublicKeyB0⟩
          else ⟨g2.1, SharedSecretB0, PublicKeyB0⟩
        else ⟨g1.1, SharedSecretB0, PublicKeyB0⟩
      else ⟨g0.1, SharedSecretB0, PublicKeyB0⟩
    else ⟨ra.1, SharedSecretB0, PublicKeyB0⟩
  else ⟨r1.1, SharedSecretB0, PublicKeyB0⟩

/-- Status of the first failing oracle call of SecretAgreement_B, in
call order, or success when all six calls succeed. -/
def SAB_firstFailure (O : Oracles) (PublicKeyA : Nat → Nat) : CRYPTO_STATUS :=
  let seed := (decode_A PublicKeyA).2
  let r1 := O.randomBytes 0 ERROR_SEED_BYTES
  if r1.1 = CRYPTO_SUCCESS then
    let ra := generate_a O seed
    if ra.1 = CRYPTO_SUCCESS then
      let g0 := O.stream r1.2 (get_error_nonce 0) (3*PARAMETER_N)
      if g0.1 = CRYPTO_SUCCESS then
        let g1 := O.stream r1.2 (get_error_nonce 1) (3*PARAMETER_N)
        if g1.1 = CRYPTO_SUCCESS then
          let g2 := O.stream r1.2 (get_error_nonce 2) (3*PARAMETER_N)
          if g2.1 = CRYPTO_SUCCESS then
            let hr := O.stream r1.2 (HelpRec_nonce 3) 32
            if hr.1 = CRYPTO_SUCCESS then CRYPTO_SUCCESS else hr.1
          else g2.1
        else g1.1
      else g0.1
    else ra.1
  else r1.1

/-- SecretAgreement_A (kex.c lines 508-531): decode PublicKeyB, multiply
by the stored NTT-domain secret key, inverse-transform, reduce, correct,
reconcile; the status is initialised to CRYPTO_SUCCESS and never
changed, and no oracle is consulted. -/
def SecretAgreement_A (PublicKeyB : Nat → Nat) (SecretKeyA : Nat → ℤ)
    (SharedSecretA0 : Nat → Nat) : CRYPTO_STATUS × (Nat → Nat) :=
  let u := (decode_B PublicKeyB).1
  let rv := (decode_B PublicKeyB).2
  let w := correction (two_reduce12289 (INTT_GS_rev2std_12289
    (pmul SecretKeyA (fun k => (u k : ℤ)))))
  (CRYPTO_SUCCESS, RecKey (fun k => (w k).toNat) rv)


/-!
Summation toolbox for the ring product: congruence, vanishing, and a
balanced re-association of sumTo over 1024 terms that keeps kernel
evaluation shallow.
-/

/-- Balanced sum of the 2^d values f lo, f (lo+1), ..., f (lo + 2^d - 1). -/
def sumPow (f : Nat → ℤ) : Nat → Nat → ℤ
  | 0, lo => f lo
  | d+1, lo => sumPow f d lo + sumPow f d (lo + 2^d)

lemma sumTo_congr (f g : Nat → ℤ) (n : Nat) (h : ∀ j, j < n → f j = g j) :
    sumTo f n = sumTo g n := by
  induction n with
  | zero => rfl
  | succ m ih =>
    show sumTo f m + f m = sumTo g m + g m
    rw [ih (fun j hj => h j (by omega)), h m (by omega)]

lemma sumTo_eq_zero (f : Nat → ℤ) (n : Nat) (h : ∀ j, j < n → f j = 0) :
    sumTo f n = 0 := by
  induction n with
  | zero => rfl
  | succ m ih =>
    show sumTo f m + f m = 0
    rw [ih (fun j hj => h j (by omega)), h m (by omega)]
    ring

lemma sumTo_add_split (f : Nat → ℤ) (a b : Nat) :
    sumTo f (a + b) = sumTo f a + sumTo (fun j => f (a + j)) b := by
  induction b with
  | zero =>
    show sumTo f a = sumTo f a + 0
    ring
  | succ m ih =>
    show sumTo f (a + m) + f (a + m) =
      sumTo f a + (sumTo (fun j => f (a + j)) m + f (a + m))
    rw [ih]
    ring

lemma sumPow_eq (f : Nat → ℤ) :
    ∀ d lo, sumPow f d lo = sumTo (fun j => f (lo + j)) (2^d) := by
  intro d
  induction d with
  | zero =>
    intro lo
    show f lo = 0 + f (lo + 0)
    rw [Nat.add_zero]
    ring
  | succ m ih =>
    intro lo
    show sumPow f m lo + sumPow f m (lo + 2^m) = _
    rw [ih lo, ih (lo + 2^m), pow_succ, Nat.mul_two, sumTo_add_split]
    congr 1
    apply sumTo_congr
    intro j hj
    show f (lo + 2^m + j) = f (lo + (2^m + j))
    rw [Nat.add_assoc]

lemma sumTo_pow (f : Nat → ℤ) (d : Nat) : sumTo f (2^d) = sumPow f d 0 := by
  rw [sumPow_eq]
  apply sumTo_congr
  intro j hj
  rw [Nat.zero_add]

lemma sumTo_1024 (f : Nat → ℤ) : sumTo f 1024 = sumPow f 10 0 :=
  sumTo_pow f 10

/-- Dropping an all-zero tail of a sum. -/
lemma sumTo_prefix_zero (f : Nat → ℤ) (m t : Nat)
    (h : ∀ j, m ≤ j → j < m + t → f j = 0) :
    sumTo f (m + t) = sumTo f m := by
  rw [sumTo_add_split,
    sumTo_eq_zero (fun j => f (m + j)) t (fun j hj => h (m + j) (by omega) (by omega))]
  ring

/-- negaConv expressed through the balanced sum, for shallow evaluation. -/
lemma negaConv_1024 (a b2 : Nat → ℤ) (k : Nat) :
    negaConv a b2 k =
      sumPow (fun j => if j ≤ k then a j * b2 (k - j) else -(a j * b2 (1024 + k - j)))
        10 0 := by
  rw [negaConv, sumTo_1024]

/-- The ring product depends only on the first 1024 coefficients of each
factor. -/
lemma negaConv_congr (a a2 b b2 : Nat → ℤ) (k : Nat) (hk : k < 1024)
    (ha : ∀ j, j < 1024 → a j = a2 j) (hb : ∀ j, j < 1024 → b j = b2 j) :
    negaConv a b k = negaConv a2 b2 k := by
  apply sumTo_congr
  intro j hj
  by_cases hjk : j ≤ k
  · rw [if_pos hjk, if_pos hjk, ha j hj, hb (k - j) (by omega)]
  · rw [if_neg hjk, if_neg hjk, ha j hj, hb (1024 + k - j) (by omega)]

/-- The ring product vanishes when the left factor vanishes on [0, 1024). -/
lemma negaConv_eq_zero_left (a b : Nat → ℤ) (k : Nat)
    (ha : ∀ j, j < 1024 → a j = 0) : negaConv a b k = 0 := by
  apply sumTo_eq_zero
  intro j hj
  by_cases hjk : j ≤ k
  · rw [if_pos hjk, ha j hj]
    ring
  · rw [if_neg hjk, ha j hj]
    ring

/-- The ring product vanishes when the right factor vanishes on [0, 1024). -/
lemma negaConv_eq_zero_right (a b : Nat → ℤ) (k : Nat) (hk : k < 1024)
    (hb : ∀ j, j < 1024 → b j = 0) : negaConv a b k = 0 := by
  apply sumTo_eq_zero
  intro j hj
  by_cases hjk : j ≤ k
  · rw [if_pos hjk, hb (k - j) (by omega)]
    ring
  · rw [if_neg hjk, hb (1024 + k - j) (by omega)]
    ring

/-- The centered-binomial sampler yields 0 on an all-zero stream. -/
lemma sample_zero : ∀ k, sample (fun _ => 0) k = 0 := by
  intro k
  simp [sample, sampleAcc1, sampleAcc2, popc8, Nat.zero_and, Nat.zero_shiftRight]

/-- Coefficients produced by the reduce-and-correct pipeline are canonical:
nonnegative and below q. -/
lemma correction_two_reduce_bound (p : Nat → ℤ) (k : Nat) :
    0 ≤ correction (two_reduce12289 p) k ∧
      correction (two_reduce12289 p) k < PARAMETER_Q := by
  have h1 : 0 ≤ p k % ((PARAMETER_Q : Nat) : ℤ) :=
    Int.emod_nonneg _ (by simp [PARAMETER_Q])
  have h2 : p k % ((PARAMETER_Q : Nat) : ℤ) < ((PARAMETER_Q : Nat) : ℤ) :=
    Int.emod_lt_of_pos _ (by simp [PARAMETER_Q])
  simp only [correction, two_reduce12289]
  rw [if_neg (by omega)]
  constructor
  · exact h1
  · omega

/-- Every component of a HelpRec group is at most 3 (the final AND 3). -/
lemma helpRecGroup_le3 (x0 x1 x2 x3 b : Nat) :
    (helpRecGroup x0 x1 x2 x3 b).1 ≤ 3 ∧ (helpRecGroup x0 x1 x2 x3 b).2.1 ≤ 3 ∧
    (helpRecGroup x0 x1 x2 x3 b).2.2.1 ≤ 3 ∧ (helpRecGroup x0 x1 x2 x3 b).2.2.2 ≤ 3 := by
  simp only [helpRecGroup]
  exact ⟨Nat.and_le_right, Nat.and_le_right, Nat.and_le_right, Nat.and_le_right⟩

/-- Every hint entry produced by HelpRec is at most 3. -/
lemma helpRecPoly_le3 (x bits : Nat → Nat) (idx : Nat) :
    helpRecPoly x bits idx ≤ 3 := by
  simp only [helpRecPoly]
  by_cases h1 : idx < 256
  · rw [if_pos h1]
    exact (helpRecGroup_le3 _ _ _ _ _).1
  · rw [if_neg h1]
    by_cases h2 : idx < 512
    · rw [if_pos h2]
      exact (helpRecGroup_le3 _ _ _ _ _).2.1
    · rw [if_neg h2]
      by_cases h3 : idx < 768
      · rw [if_pos h3]
        exact (helpRecGroup_le3 _ _ _ _ _).2.2.1
      · rw [if_neg h3]
        exact (helpRecGroup_le3 _ _ _ _ _).2.2.2

/-!
Stability of the reconciliation decision: the distance to the scaled
lattice is 8q-periodic and 1-Lipschitz, so perturbing a canonical
coefficient by a small cyclic distance mod q moves each lane distance by
at most 8 times that cyclic distance.
-/

/-- Cyclic distance of two canonical coefficients modulo q. -/
def cycDistQ (a b : Nat) : Nat :=
  min ((a - b) + (b - a)) (PARAMETER_Q - ((a - b) + (b - a)))

lemma cycDistQ_comm (a b : Nat) : cycDistQ a b = cycDistQ b a := by
  simp only [cycDistQ]
  omega

/-- dist8qZ is 1-Lipschitz in both directions. -/
lemma dist8qZ_diff (t d : ℤ) :
    dist8qZ (t + d) ≤ dist8qZ t + d.natAbs ∧
      dist8qZ t ≤ dist8qZ (t + d) + d.natAbs := by
  simp only [dist8qZ, PARAMETER_Q]
  omega

/-- dist8qZ is invariant under translation by 8q. -/
lemma dist8qZ_period (t : ℤ) : dist8qZ (t + 8*(PARAMETER_Q:ℤ)) = dist8qZ t := by
  simp only [dist8qZ, PARAMETER_Q]
  omega

/-- Replacing the canonical coefficient a by b moves the lane distance by
at most 8 times their cyclic distance mod q. -/
lemma dist8qZ_shift (a b : Nat) (c : ℤ) (ha : a < PARAMETER_Q) (hb : b < PARAMETER_Q) :
    dist8qZ (8*(a:ℤ) + c) ≤ dist8qZ (8*(b:ℤ) + c) + 8 * cycDistQ a b := by
  rcases le_or_lt ((a-b)+(b-a)) (PARAMETER_Q - ((a-b)+(b-a))) with hcase | hcase
  · have hcyc : cycDistQ a b = (a-b)+(b-a) := by
      simp only [cycDistQ]
      omega
    have hd := (dist8qZ_diff (8*(b:ℤ) + c) (8*((a:ℤ)-b))).1
    have harg : 8*(b:ℤ) + c + 8*((a:ℤ)-b) = 8*(a:ℤ) + c := by ring
    rw [harg] at hd
    have habs : (8*((a:ℤ)-b)).natAbs = 8*((a-b)+(b-a)) := by omega
    omega
  · rcases le_or_lt b a with hab | hab
    · have hcyc : cycDistQ a b = PARAMETER_Q - (a - b) := by
        simp only [cycDistQ]
        omega
      have hd := (dist8qZ_diff (8*(b:ℤ) + c + 8*(PARAMETER_Q:ℤ))
        (-(8*((PARAMETER_Q:ℤ) - ((a:ℤ)-b))))).1
      rw [dist8qZ_period] at hd
      have harg : 8*(b:ℤ) + c + 8*(PARAMETER_Q:ℤ) +
          -(8*((PARAMETER_Q:ℤ) - ((a:ℤ)-b))) = 8*(a:ℤ) + c := by ring
      rw [harg] at hd
      have habs : (-(8*((PARAMETER_Q:ℤ) - ((a:ℤ)-b)))).natAbs = 8*(PARAMETER_Q - (a-b)) := by
        simp only [PARAMETER_Q] at *
        omega
      omega
    · have hcyc : cycDistQ a b = PARAMETER_Q - (b - a) := by
        simp only [cycDistQ]
        omega
      have hper := dist8qZ_period (8*(a:ℤ) + c)
      have hd := (dist8qZ_diff (8*(b:ℤ) + c) (8*((PARAMETER_Q:ℤ) - ((b:ℤ)-a)))).1
      have harg : 8*(b:ℤ) + c + 8*((PARAMETER_Q:ℤ) - ((b:ℤ)-a)) =
          8*(a:ℤ) + c + 8*(PARAMETER_Q:ℤ) := by ring
      rw [harg, hper] at hd
      have habs : (8*((PARAMETER_Q:ℤ) - ((b:ℤ)-a))).natAbs = 8*(PARAMETER_Q - (b-a)) := by
        simp only [PARAMETER_Q] at *
        omega
      omega

/-- Lane-distance transfer along the Rec lane value. -/
lemma dist8qZ_recT_le (a b m : Nat) (ha : a < PARAMETER_Q) (hb : b < PARAMETER_Q)
    (hm : m ≤ 9) :
    dist8qZ (recT a m) ≤ dist8qZ (recT b m) + 8 * cycDistQ a b := by
  rw [recT_eq a m ha hm, recT_eq b m hb hm, sub_eq_add_neg, sub_eq_add_neg]
  exact dist8qZ_shift a b (-((m:ℤ)*(PARAMETER_Q:ℤ))) ha hb

lemma LDDecode_zero_or_one (t0 t1 t2 t3 : ℤ) :
    LDDecode t0 t1 t2 t3 = 0 ∨ LDDecode t0 t1 t2 t3 = 1 := by
  simp only [LDDecode]
  split
  · left
    rfl
  · right
    rfl

/-- Margin of one reconciliation group: the sum of B-side lane distances,
padded by 8 times the summed cyclic distances between the A-side and
B-side coefficients of the group, stays on one side of the 8q decision
threshold. -/
def groupMargin (x y r : Nat → Nat) (i : Nat) : Prop :=
  dist8qZ (recT (y i) (2 * r i + r (i+768))) +
      dist8qZ (recT (y (i+256)) (2 * r (i+256) + r (i+768))) +
      dist8qZ (recT (y (i+512)) (2 * r (i+512) + r (i+768))) +
      dist8qZ (recT (y (i+768)) (r (i+768))) +
      8 * (cycDistQ (x i) (y i) + cycDistQ (x (i+256)) (y (i+256)) +
           cycDistQ (x (i+512)) (y (i+512)) + cycDistQ (x (i+768)) (y (i+768))) ≤
    8*PARAMETER_Q ∨
  8*PARAMETER_Q +
      8 * (cycDistQ (x i) (y i) + cycDistQ (x (i+256)) (y (i+256)) +
           cycDistQ (x (i+512)) (y (i+512)) + cycDistQ (x (i+768)) (y (i+768))) <
    dist8qZ (recT (y i) (2 * r i + r (i+768))) +
      dist8qZ (recT (y (i+256)) (2 * r (i+256) + r (i+768))) +
      dist8qZ (recT (y (i+512)) (2 * r (i+512) + r (i+768))) +
      dist8qZ (recT (y (i+768)) (r (i+768)))

/-- recBit depends on the hint vector only at the four indices of its
group. -/
lemma recBit_congr (x r r2 : Nat → Nat) (i : Nat)
    (h0 : r2 i = r i) (h1 : r2 (i+256) = r (i+256))
    (h2 : r2 (i+512) = r (i+512)) (h3 : r2 (i+768) = r (i+768)) :
    recBit x r2 i = recBit x r i := by
  simp only [recBit]
  rw [h0, h1, h2, h3]

/-- Under the group margin, the A-side and B-side shared-secret bits of
the group agree. -/
lemma recBit_eq_of_margin (x y r : Nat → Nat) (i : Nat)
    (hx : ∀ j, j < 1024 → x j < PARAMETER_Q) (hy : ∀ j, j < 1024 → y j < PARAMETER_Q)
    (hr : ∀ j, j < 1024 → r j ≤ 3) (hi : i < 256) (hm : groupMargin x y r i) :
    recBit x r i = recBit y r i := by
  have h0 := hr i (by omega)
  have h1 := hr (i+256) (by omega)
  have h2 := hr (i+512) (by omega)
  have h3 := hr (i+768) (by omega)
  have hx0 := hx i (by omega)
  have hx1 := hx (i+256) (by omega)
  have hx2 := hx (i+512) (by omega)
  have hx3 := hx (i+768) (by omega)
  have hy0 := hy i (by omega)
  have hy1 := hy (i+256) (by omega)
  have hy2 := hy (i+512) (by omega)
  have hy3 := hy (i+768) (by omega)
  have ix := LDDecode_eq_one_iff (x i) (x (i+256)) (x (i+512)) (x (i+768))
    (r i) (r (i+256)) (r (i+512)) (r (i+768)) hx0 hx1 hx2 hx3 h0 h1 h2 h3
  have iy := LDDecode_eq_one_iff (y i) (y (i+256)) (y (i+512)) (y (i+768))
    (r i) (r (i+256)) (r (i+512)) (r (i+768)) hy0 hy1 hy2 hy3 h0 h1 h2 h3
  have t0 := dist8qZ_recT_le (x i) (y i) (2 * r i + r (i+768)) hx0 hy0 (by omega)
  have t1 := dist8qZ_recT_le (x (i+256)) (y (i+256)) (2 * r (i+256) + r (i+768))
    hx1 hy1 (by omega)
  have t2 := dist8qZ_recT_le (x (i+512)) (y (i+512)) (2 * r (i+512) + r (i+768))
    hx2 hy2 (by omega)
  have t3 := dist8qZ_recT_le (x (i+768)) (y (i+768)) (r (i+768)) hx3 hy3 (by omega)
  have u0 := dist8qZ_recT_le (y i) (x i) (2 * r i + r (i+768)) hy0 hx0 (by omega)
  have u1 := dist8qZ_recT_le (y (i+256)) (x (i+256)) (2 * r (i+256) + r (i+768))
    hy1 hx1 (by omega)
  have u2 := dist8qZ_recT_le (y (i+512)) (x (i+512)) (2 * r (i+512) + r (i+768))
    hy2 hx2 (by omega)
  have u3 := dist8qZ_recT_le (y (i+768)) (x (i+768)) (r (i+768)) hy3 hx3 (by omega)
  rw [cycDistQ_comm (y i) (x i)] at u0
  rw [cycDistQ_comm (y (i+256)) (x (i+256))] at u1
  rw [cycDistQ_comm (y (i+512)) (x (i+512))] at u2
  rw [cycDistQ_comm (y (i+768)) (x (i+768))] at u3
  simp only [recBit]
  rcases hm with hm | hm
  · have hyb := iy.2 (by omega)
    have hxb := ix.2 (by omega)
    rw [hxb, hyb]
  · have hyb : LDDecode (recT (y i) (2 * r i + r (i+768)))
        (recT (y (i+256)) (2 * r (i+256) + r (i+768)))
        (recT (y (i+512)) (2 * r (i+512) + r (i+768)))
        (recT (y (i+768)) (r (i+768))) = 0 := by
      rcases LDDecode_zero_or_one (recT (y i) (2 * r i + r (i+768)))
        (recT (y (i+256)) (2 * r (i+256) + r (i+768)))
        (recT (y (i+512)) (2 * r (i+512) + r (i+768)))
        (recT (y (i+768)) (r (i+768))) with hz | ho
      · exact hz
      · have := iy.1 ho
        omega
    have hxb : LDDecode (recT (x i) (2 * r i + r (i+768)))
        (recT (x (i+256)) (2 * r (i+256) + r (i+768)))
        (recT (x (i+512)) (2 * r (i+512) + r (i+768)))
        (recT (x (i+768)) (r (i+768))) = 0 := by
      rcases LDDecode_zero_or_one (recT (x i) (2 * r i + r (i+768)))
        (recT (x (i+256)) (2 * r (i+256) + r (i+768)))
        (recT (x (i+512)) (2 * r (i+512) + r (i+768)))
        (recT (x (i+768)) (r (i+768))) with hz | ho
      · exact hz
      · have := ix.1 ho
        omega
    rw [hxb, hyb]

/-- Byte-level agreement of the two RecKey computations under the margin
condition; the A side may carry any hint vector agreeing with the B-side
hint on [0, 1024). -/
lemma RecKey_eq_of_margin (x y r rv : Nat → Nat)
    (hx : ∀ j, j < 1024 → x j < PARAMETER_Q) (hy : ∀ j, j < 1024 → y j < PARAMETER_Q)
    (hr : ∀ j, j < 1024 → r j ≤ 3) (hrv : ∀ j, j < 1024 → rv j = r j)
    (hm : ∀ i, i < 256 → groupMargin x y r i) (k : Nat) (hk : k < 32) :
    RecKey x rv k = RecKey y r k := by
  have hbit : ∀ g, g < 256 → recBit x rv g = recBit y r g := by
    intro g hg
    have hc := recBit_congr x r rv g (hrv g (by omega)) (hrv (g+256) (by omega))
      (hrv (g+512) (by omega)) (hrv (g+768) (by omega))
    rw [hc]
    exact recBit_eq_of_margin x y r g hx hy hr hg (hm g hg)
  simp only [RecKey]
  rw [hbit (8*k) (by omega), hbit (8*k+1) (by omega), hbit (8*k+2) (by omega),
    hbit (8*k+3) (by omega), hbit (8*k+4) (by omega), hbit (8*k+5) (by omega),
    hbit (8*k+6) (by omega), hbit (8*k+7) (by omega)]


/-!
Named values of the all-success paths of the two randomized
orchestrators, as functions of the oracle triple, and reduction lemmas
exposing them.
-/

/-- The secret key s (NTT domain) stored by KeyGeneration_A on success. -/
def KG_skA (O : Oracles) : Nat → ℤ :=
  NTT_CT_std2rev_12289 (sample (O.stream (O.randomBytes 1 ERROR_SEED_BYTES).2
    (get_error_nonce 0) (3*PARAMETER_N)).2)

/-- The scaled error polynomial 3*e (NTT domain) of KeyGeneration_A. -/
def KG_e (O : Oracles) : Nat → ℤ :=
  smul (NTT_CT_std2rev_12289 (sample (O.stream (O.randomBytes 1 ERROR_SEED_BYTES).2
    (get_error_nonce 1) (3*PARAMETER_N)).2)) 3

/-- The public polynomial b = a*s + 3e of KeyGeneration_A, canonical. -/
def KG_b (O : Oracles) : Nat → ℤ :=
  correction (pmuladd (fun k => ((O.xof (O.randomBytes 0 SEED_BYTES).2).2 k : ℤ))
    (KG_skA O) (KG_e O))

/-- The PublicKeyA message written by KeyGeneration_A on success. -/
def KG_pkA (O : Oracles) : Nat → Nat :=
  encode_A (fun k => (KG_b O k).toNat) (O.randomBytes 0 SEED_BYTES).2

/-- The responder secret s-prime (NTT domain) of SecretAgreement_B. -/
def SAB_skB (O : Oracles) : Nat → ℤ :=
  NTT_CT_std2rev_12289 (sample (O.stream (O.randomBytes 0 ERROR_SEED_BYTES).2
    (get_error_nonce 0) (3*PARAMETER_N)).2)

/-- The scaled error 3*e-prime (NTT domain) of SecretAgreement_B. -/
def SAB_e1 (O : Oracles) : Nat → ℤ :=
  smul (NTT_CT_std2rev_12289 (sample (O.stream (O.randomBytes 0 ERROR_SEED_BYTES).2
    (get_error_nonce 1) (3*PARAMETER_N)).2)) 3

/-- The scaled error 81*e-double-prime (NTT domain) of SecretAgreement_B. -/
def SAB_e2 (O : Oracles) : Nat → ℤ :=
  smul (NTT_CT_std2rev_12289 (sample (O.stream (O.randomBytes 0 ERROR_SEED_BYTES).2
    (get_error_nonce 2) (3*PARAMETER_N)).2)) 81

/-- The responder public polynomial u = a*s-prime + 3e-prime, canonical. -/
def SAB_u (O : Oracles) (PublicKeyA : Nat → Nat) : Nat → ℤ :=
  correction (pmuladd (fun k => ((O.xof (decode_A PublicKeyA).2).2 k : ℤ))
    (SAB_skB O) (SAB_e1 O))

/-- The responder shared polynomial v = b*s-prime + 81*e-double-prime,
reduced and corrected to canonical form. -/
def SAB_v (O : Oracles) (PublicKeyA : Nat → Nat) : Nat → ℤ :=
  correction (two_reduce12289 (INTT_GS_rev2std_12289
    (pmuladd (fun k => ((decode_A PublicKeyA).1 k : ℤ)) (SAB_skB O) (SAB_e2 O))))

/-- The hint vector produced by HelpRec inside SecretAgreement_B. -/
def SAB_r (O : Oracles) (PublicKeyA : Nat → Nat) : Nat → Nat :=
  helpRecPoly (fun k => (SAB_v O PublicKeyA k).toNat)
    (O.stream (O.randomBytes 0 ERROR_SEED_BYTES).2 (HelpRec_nonce 3) 32).2

/-- The PublicKeyB message written by SecretAgreement_B on success. -/
def SAB_pkB (O : Oracles) (PublicKeyA : Nat → Nat) : Nat → Nat :=
  encode_B (fun k => (SAB_u O PublicKeyA k).toNat) (SAB_r O PublicKeyA)

/-- The initiator shared polynomial w = s * u-decoded, reduced and
corrected to canonical form. -/
def SAA_w (PublicKeyB : Nat → Nat) (SecretKeyA : Nat → ℤ) : Nat → ℤ :=
  correction (two_reduce12289 (INTT_GS_rev2std_12289
    (pmul SecretKeyA (fun k => ((decode_B PublicKeyB).1 k : ℤ)))))

/-- A-side canonical shared polynomial of the honest run, as bytes. -/
def honestWN (O : Oracles) : Nat → Nat :=
  fun k => (SAA_w (SAB_pkB O (KG_pkA O)) (KG_skA O) k).toNat

/-- B-side canonical shared polynomial of the honest run, as bytes. -/
def honestVN (O : Oracles) : Nat → Nat :=
  fun k => (SAB_v O (KG_pkA O) k).toNat

/-- KeyGeneration_A on an all-success oracle run. -/
lemma KG_success_reduce (O : Oracles) (skA0 : Nat → ℤ) (pkA0 : Nat → Nat)
    (e0 : Nat → ℤ) (es0 : Nat → Nat)
    (hA1 : (O.randomBytes 0 SEED_BYTES).1 = CRYPTO_SUCCESS)
    (hA2 : (O.randomBytes 1 ERROR_SEED_BYTES).1 = CRYPTO_SUCCESS)
    (hA3 : (O.xof (O.randomBytes 0 SEED_BYTES).2).1 = CRYPTO_SUCCESS)
    (hA4 : (O.stream (O.randomBytes 1 ERROR_SEED_BYTES).2 (get_error_nonce 0)
      (3*PARAMETER_N)).1 = CRYPTO_SUCCESS)
    (hA5 : (O.stream (O.randomBytes 1 ERROR_SEED_BYTES).2 (get_error_nonce 1)
      (3*PARAMETER_N)).1 = CRYPTO_SUCCESS) :
    KeyGeneration_A O skA0 pkA0 e0 es0 =
      ⟨CRYPTO_SUCCESS, KG_skA O, KG_pkA O, zeroPoly, zeroBytes⟩ := by
  simp only [KeyGeneration_A, generate_a, get_error, hA1, hA2, hA3, hA4, hA5,
    if_true, KG_skA, KG_pkA, KG_b, KG_e]

/-- SecretAgreement_B on an all-success oracle run. -/
lemma SAB_success_reduce (O : Oracles) (PublicKeyA ssB0 pkB0 : Nat → Nat)
    (skB0 e0 : Nat → ℤ) (rv0 : Nat → Nat)
    (hB1 : (O.randomBytes 0 ERROR_SEED_BYTES).1 = CRYPTO_SUCCESS)
    (hB2 : (O.xof (decode_A PublicKeyA).2).1 = CRYPTO_SUCCESS)
    (hB3 : (O.stream (O.randomBytes 0 ERROR_SEED_BYTES).2 (get_error_nonce 0)
      (3*PARAMETER_N)).1 = CRYPTO_SUCCESS)
    (hB4 : (O.stream (O.randomBytes 0 ERROR_SEED_BYTES).2 (get_error_nonce 1)
      (3*PARAMETER_N)).1 = CRYPTO_SUCCESS)
    (hB5 : (O.stream (O.randomBytes 0 ERROR_SEED_BYTES).2 (get_error_nonce 2)
      (3*PARAMETER_N)).1 = CRYPTO_SUCCESS)
    (hB6 : (O.stream (O.randomBytes 0 ERROR_SEED_BYTES).2 (HelpRec_nonce 3)
      32).1 = CRYPTO_SUCCESS) :
    SecretAgreement_B O PublicKeyA ssB0 pkB0 skB0 e0 rv0 =
      ⟨CRYPTO_SUCCESS,
       RecKey (fun k => (SAB_v O PublicKeyA k).toNat) (SAB_r O PublicKeyA),
       SAB_pkB O PublicKeyA⟩ := by
  simp only [SecretAgreement_B, generate_a, get_error, HelpRec, hB1, hB2, hB3,
    hB4, hB5, hB6, if_true, SAB_pkB, SAB_u, SAB_v, SAB_r, SAB_skB, SAB_e1, SAB_e2]

/-- SecretAgreement_A, unconditionally. -/
lemma SAA_eq (PublicKeyB : Nat → Nat) (SecretKeyA : Nat → ℤ) (ssA0 : Nat → Nat) :
    SecretAgreement_A PublicKeyB SecretKeyA ssA0 =
      (CRYPTO_SUCCESS, RecKey (fun k => (SAA_w PublicKeyB SecretKeyA k).toNat)
        (decode_B PublicKeyB).2) := rfl

/-- A conforming oracle triple that always succeeds and always returns
zero bytes. -/
def zeroOracles : Oracles where
  randomBytes := fun _ _ => (CRYPTO_SUCCESS, fun _ => 0)
  xof := fun _ => (CRYPTO_SUCCESS, fun _ => 0)
  stream := fun _ _ _ => (CRYPTO_SUCCESS, fun _ => 0)

lemma zeroOracles_skA : ∀ j, j < 1024 → KG_skA zeroOracles j = 0 := by
  intro j hj
  show sample (fun _ => 0) j = 0
  exact sample_zero j

lemma zeroOracles_skB : ∀ j, j < 1024 → SAB_skB zeroOracles j = 0 := by
  intro j hj
  show sample (fun _ => 0) j = 0
  exact sample_zero j

lemma zeroOracles_e2 : ∀ k, SAB_e2 zeroOracles k = 0 := by
  intro k
  show sample (fun _ => 0) k * 81 % ((PARAMETER_Q : Nat) : ℤ) = 0
  rw [sample_zero k]
  norm_num

lemma zeroOracles_v : ∀ j, j < 1024 → SAB_v zeroOracles (KG_pkA zeroOracles) j = 0 := by
  intro j hj
  have hconv : negaConv
      (fun k => ((decode_A (KG_pkA zeroOracles)).1 k : ℤ)) (SAB_skB zeroOracles) j = 0 :=
    negaConv_eq_zero_right _ _ j hj zeroOracles_skB
  simp only [SAB_v, correction, two_reduce12289, INTT_GS_rev2std_12289, pmuladd,
    hconv, zeroOracles_e2]
  norm_num

lemma zeroOracles_w : ∀ j, j < 1024 →
    SAA_w (SAB_pkB zeroOracles (KG_pkA zeroOracles)) (KG_skA zeroOracles) j = 0 := by
  intro j hj
  have hconv : negaConv (KG_skA zeroOracles)
      (fun k => (((decode_B (SAB_pkB zeroOracles (KG_pkA zeroOracles))).1 k : Nat) : ℤ)) j = 0 :=
    negaConv_eq_zero_left _ _ j zeroOracles_skA
  simp only [SAA_w, correction, two_reduce12289, INTT_GS_rev2std_12289, pmul, hconv]
  norm_num

lemma zeroOracles_r : ∀ j, j < 1024 → SAB_r zeroOracles (KG_pkA zeroOracles) j = 0 := by
  intro j hj
  show helpRecPoly (fun k => (SAB_v zeroOracles (KG_pkA zeroOracles) k).toNat)
    (fun _ => 0) j = 0
  simp only [helpRecPoly]
  have h0 : (SAB_v zeroOracles (KG_pkA zeroOracles) (j % 256)).toNat = 0 := by
    rw [zeroOracles_v (j % 256) (by omega)]
    rfl
  have h1 : (SAB_v zeroOracles (KG_pkA zeroOracles) (j % 256 + 256)).toNat = 0 := by
    rw [zeroOracles_v (j % 256 + 256) (by omega)]
    rfl
  have h2 : (SAB_v zeroOracles (KG_pkA zeroOracles) (j % 256 + 512)).toNat = 0 := by
    rw [zeroOracles_v (j % 256 + 512) (by omega)]
    rfl
  have h3 : (SAB_v zeroOracles (KG_pkA zeroOracles) (j % 256 + 768)).toNat = 0 := by
    rw [zeroOracles_v (j % 256 + 768) (by omega)]
    rfl
  rw [h0, h1, h2, h3]
  simp only [Nat.zero_shiftRight, Nat.zero_and]
  have hg : helpRecGroup 0 0 0 0 0 = (0, 0, 0, 0) := by decide
  rw [hg]
  split_ifs <;> rfl

/-- Every reconciliation group of the all-zero honest run clears the
margin. -/
lemma zeroOracles_margin : ∀ i, i < 256 →
    groupMargin (honestWN zeroOracles) (honestVN zeroOracles)
      (SAB_r zeroOracles (KG_pkA zeroOracles)) i := by
  intro i hi
  have hw0 : ∀ j, j < 1024 → honestWN zeroOracles j = 0 := by
    intro j hj
    show (SAA_w (SAB_pkB zeroOracles (KG_pkA zeroOracles)) (KG_skA zeroOracles) j).toNat = 0
    rw [zeroOracles_w j hj]
    rfl
  have hv0 : ∀ j, j < 1024 → honestVN zeroOracles j = 0 := by
    intro j hj
    show (SAB_v zeroOracles (KG_pkA zeroOracles) j).toNat = 0
    rw [zeroOracles_v j hj]
    rfl
  simp only [groupMargin]
  left
  rw [hw0 i (by omega), hw0 (i+256) (by omega), hw0 (i+512) (by omega),
    hw0 (i+768) (by omega), hv0 i (by omega), hv0 (i+256) (by omega),
    hv0 (i+512) (by omega), hv0 (i+768) (by omega),
    zeroOracles_r i (by omega), zeroOracles_r (i+256) (by omega),
    zeroOracles_r (i+512) (by omega), zeroOracles_r (i+768) (by omega)]
  decide

/-!
A conforming oracle triple on which the honest all-success run produces
DIFFERENT shared secrets: the initiator error e and the responder secret
s-prime are crafted (within the sampler's reachable range, via stream
bytes) so that the responder decision vector reaches the 8q threshold.
-/

/-- Stream bytes under the initiator error seed at error nonce 1: the
sampler turns them into e = 12 on coefficients [0, 71), 0 elsewhere. -/
def cexStreamA1 : Nat → Nat := fun i =>
  if i % 2 = 0 ∧ i < 142 then 255
  else if i % 2 = 0 ∧ 2048 ≤ i ∧ i < 2190 then 15 else 0

/-- Stream bytes under the responder error seed at error nonce 0: the
sampler turns them into s-prime = 12 on [0,71), [256,327), [512,583) and
[768,839), 0 elsewhere. -/
def cexStreamB0 : Nat → Nat := fun i =>
  if i % 2 = 0 ∧ (i < 142 ∨ (512 ≤ i ∧ i < 654) ∨ (1024 ≤ i ∧ i < 1166) ∨
      (1536 ≤ i ∧ i < 1678) ∨ (2048 ≤ i ∧ i < 2190) ∨ (2560 ≤ i ∧ i < 2702))
  then 255 else 0

/-- The crafted oracle triple: every call succeeds; random bytes are the
call index; the XOF yields the zero polynomial a = 0; the stream yields
the crafted bytes at the two nonces above (the key distinguishes the
initiator error seed, all bytes 1, from the responder error seed, all
bytes 0) and zero bytes elsewhere. -/
def cexO : Oracles where
  randomBytes := fun n _ => (CRYPTO_SUCCESS, fun _ => n % 256)
  xof := fun _ => (CRYPTO_SUCCESS, fun _ => 0)
  stream := fun key nce _ =>
    (CRYPTO_SUCCESS,
     if key 0 = 1 then
       if nce = get_error_nonce 1 then cexStreamA1 else fun _ => 0
     else
       if nce = get_error_nonce 0 then cexStreamB0 else fun _ => 0)

/-- Closed form of the decoded initiator public polynomial b = 3e. -/
def cexPkC : Nat → ℤ := fun j => if j < 71 then 36 else 0

/-- Closed form of the responder secret s-prime. -/
def cexSkC : Nat → ℤ := fun j =>
  if j < 71 ∨ (256 ≤ j ∧ j < 327) ∨ (512 ≤ j ∧ j < 583) ∨ (768 ≤ j ∧ j < 839)
  then (12:ℤ) else 0

lemma cexA1_odd (i : Nat) (h : i % 2 = 1) : cexStreamA1 i = 0 := by
  simp only [cexStreamA1]
  rw [if_neg (by omega), if_neg (by omega)]

lemma cexA1_low (i : Nat) (h0 : i % 2 = 0) (h1 : i < 142) : cexStreamA1 i = 255 := by
  simp only [cexStreamA1]
  rw [if_pos ⟨h0, h1⟩]

lemma cexA1_mid (i : Nat) (h1 : 142 ≤ i) (h2 : i < 2048) : cexStreamA1 i = 0 := by
  simp only [cexStreamA1]
  rw [if_neg (by omega), if_neg (by omega)]

lemma cexA1_hi (i : Nat) (h0 : i % 2 = 0) (h1 : 2048 ≤ i) (h2 : i < 2190) :
    cexStreamA1 i = 15 := by
  simp only [cexStreamA1]
  rw [if_neg (by omega), if_pos ⟨h0, h1, h2⟩]

lemma cexA1_top (i : Nat) (h1 : 2190 ≤ i) : cexStreamA1 i = 0 := by
  simp only [cexStreamA1]
  rw [if_neg (by omega), if_neg (by omega)]

lemma cex_sampleA1 : ∀ k, k < 1024 →
    sample cexStreamA1 k = if k < 71 then (12:ℤ) else 0 := by
  intro k hk
  by_cases h5 : k < 512
  · have hodd1 : cexStreamA1 (2*k+1) = 0 := cexA1_odd _ (by omega)
    have hodd2 : cexStreamA1 (2048 + (2*k+1)) = 0 := cexA1_odd _ (by omega)
    simp only [sample, sampleAcc1]
    rw [if_pos h5, hodd1, hodd2]
    by_cases h71 : k < 71
    · rw [cexA1_low (2*k) (by omega) (by omega),
        cexA1_hi (2048 + 2*k) (by omega) (by omega) (by omega), if_pos h71]
      decide
    · rw [cexA1_mid (2*k) (by omega) (by omega),
        cexA1_top (2048 + 2*k) (by omega), if_neg h71]
      decide
  · have hodd1 : cexStreamA1 (1024 + (2*(k - 512)+1)) = 0 := cexA1_odd _ (by omega)
    have hodd2 : cexStreamA1 (2048 + (2*(k - 512)+1)) = 0 := cexA1_odd _ (by omega)
    simp only [sample, sampleAcc2]
    rw [if_neg h5, hodd1, hodd2,
      cexA1_mid (1024 + 2*(k - 512)) (by omega) (by omega), if_neg (by omega)]
    by_cases h583 : k < 583
    · rw [cexA1_hi (2048 + 2*(k - 512)) (by omega) (by omega) (by omega)]
      decide
    · rw [cexA1_top (2048 + 2*(k - 512)) (by omega)]
      decide

lemma cexB0_odd (i : Nat) (h : i % 2 = 1) : cexStreamB0 i = 0 := by
  simp only [cexStreamB0]
  rw [if_neg (by omega)]

lemma cexB0_on (i : Nat) (h0 : i % 2 = 0)
    (h : i < 142 ∨ (512 ≤ i ∧ i < 654) ∨ (1024 ≤ i ∧ i < 1166) ∨
      (1536 ≤ i ∧ i < 1678) ∨ (2048 ≤ i ∧ i < 2190) ∨ (2560 ≤ i ∧ i < 2702)) :
    cexStreamB0 i = 255 := by
  simp only [cexStreamB0]
  rw [if_pos ⟨h0, h⟩]

lemma cexB0_off (i : Nat)
    (h : ¬(i < 142 ∨ (512 ≤ i ∧ i < 654) ∨ (1024 ≤ i ∧ i < 1166) ∨
      (1536 ≤ i ∧ i < 1678) ∨ (2048 ≤ i ∧ i < 2190) ∨ (2560 ≤ i ∧ i < 2702))) :
    cexStreamB0 i = 0 := by
  simp only [cexStreamB0]
  rw [if_neg (fun hc => h hc.2)]

lemma cex_sampleB0 : ∀ k, k < 1024 → sample cexStreamB0 k = cexSkC k := by
  intro k hk
  simp only [cexSkC]
  by_cases h5 : k < 512
  · have hodd1 : cexStreamB0 (2*k+1) = 0 := cexB0_odd _ (by omega)
    have hodd2 : cexStreamB0 (2048 + (2*k+1)) = 0 := cexB0_odd _ (by omega)
    simp only [sample, sampleAcc1]
    rw [if_pos h5, hodd1, hodd2]
    by_cases hin : k < 71 ∨ (256 ≤ k ∧ k < 327)
    · rw [cexB0_on (2*k) (by omega) (by omega),
        cexB0_on (2048 + 2*k) (by omega) (by omega), if_pos (by omega)]
      decide
    · rw [cexB0_off (2*k) (by omega), cexB0_off (2048 + 2*k) (by omega),
        if_neg (by omega)]
      decide
  · have hodd1 : cexStreamB0 (1024 + (2*(k - 512)+1)) = 0 := cexB0_odd _ (by omega)
    have hodd2 : cexStreamB0 (2048 + (2*(k - 512)+1)) = 0 := cexB0_odd _ (by omega)
    simp only [sample, sampleAcc2]
    rw [if_neg h5, hodd1, hodd2]
    by_cases hin : (512 ≤ k ∧ k < 583) ∨ (768 ≤ k ∧ k < 839)
    · rw [cexB0_on (1024 + 2*(k - 512)) (by omega) (by omega),
        cexB0_on (2048 + 2*(k - 512)) (by omega) (by omega), if_pos (by omega)]
      decide
    · rw [cexB0_off (1024 + 2*(k - 512)) (by omega),
        cexB0_off (2048 + 2*(k - 512)) (by omega), if_neg (by omega)]
      decide

lemma cex_skA : ∀ j, j < 1024 → KG_skA cexO j = 0 := by
  intro j hj
  show sample (fun _ => 0) j = 0
  exact sample_zero j

lemma cex_skB : ∀ j, j < 1024 → SAB_skB cexO j = cexSkC j := by
  intro j hj
  show sample cexStreamB0 j = cexSkC j
  exact cex_sampleB0 j hj

lemma cex_e2 : ∀ k, SAB_e2 cexO k = 0 := by
  intro k
  show sample (fun _ => 0) k * 81 % ((PARAMETER_Q : Nat) : ℤ) = 0
  rw [sample_zero k]
  norm_num

lemma cex_KG_e : ∀ k, k < 1024 → KG_e cexO k = if k < 71 then (36:ℤ) else 0 := by
  intro k hk
  show sample cexStreamA1 k * 3 % ((PARAMETER_Q : Nat) : ℤ) = _
  rw [cex_sampleA1 k hk]
  by_cases h : k < 71
  · rw [if_pos h, if_pos h]
    decide
  · rw [if_neg h, if_neg h]
    decide

lemma cex_KG_b : ∀ k, k < 1024 → KG_b cexO k = if k < 71 then (36:ℤ) else 0 := by
  intro k hk
  have hconv : negaConv (fun j => ((cexO.xof (cexO.randomBytes 0 SEED_BYTES).2).2 j : ℤ))
      (KG_skA cexO) k = 0 := by
    apply negaConv_eq_zero_left
    intro j hj
    show ((0:Nat):ℤ) = 0
    norm_num
  simp only [KG_b, correction, pmuladd, hconv, cex_KG_e k hk]
  by_cases h : k < 71
  · rw [if_pos h]
    decide
  · rw [if_neg h]
    decide

lemma cex_KG_bN : ∀ k, k < 1024 → (KG_b cexO k).toNat = if k < 71 then 36 else 0 := by
  intro k hk
  rw [cex_KG_b k hk]
  by_cases h : k < 71
  · rw [if_pos h, if_pos h]
    rfl
  · rw [if_neg h, if_neg h]
    rfl

lemma cex_decodeA : ∀ j, j < 1024 →
    (decode_A (KG_pkA cexO)).1 j = if j < 71 then 36 else 0 := by
  intro j hj
  have hbound : ∀ i, i < 1024 → (fun k => (KG_b cexO k).toNat) i < 16384 := by
    intro i hi
    show (KG_b cexO i).toNat < 16384
    rw [cex_KG_bN i hi]
    by_cases h : i < 71
    · rw [if_pos h]
      norm_num
    · rw [if_neg h]
      norm_num
  show decodeCoeff (KG_pkA cexO) (j / 4) (j % 4) = _
  rw [decode_encode_poly (KG_pkA cexO) (fun k => (KG_b cexO k).toNat) j hj hbound
    (fun i hi => encode_A_byte (fun k => (KG_b cexO k).toNat)
      ((cexO.randomBytes 0 SEED_BYTES).2) (j/4) i (by omega) hi)]
  exact cex_KG_bN j hj

lemma cex_pkAZ : ∀ j, j < 1024 →
    ((decode_A (KG_pkA cexO)).1 j : ℤ) = cexPkC j := by
  intro j hj
  rw [cex_decodeA j hj]
  simp only [cexPkC]
  by_cases h : j < 71
  · rw [if_pos h, if_pos h]
    norm_num
  · rw [if_neg h, if_neg h]
    norm_num

lemma cex_conv : ∀ k, k < 1024 →
    negaConv (fun j => ((decode_A (KG_pkA cexO)).1 j : ℤ)) (SAB_skB cexO) k =
      negaConv cexPkC cexSkC k :=
  fun k hk => negaConv_congr _ _ _ _ k hk cex_pkAZ cex_skB

lemma cex_v_eval (idx : Nat) (hidx : idx < 1024) :
    SAB_v cexO (KG_pkA cexO) idx =
      negaConv cexPkC cexSkC idx % ((PARAMETER_Q : Nat) : ℤ) := by
  simp only [SAB_v, correction, two_reduce12289, INTT_GS_rev2std_12289, pmuladd,
    cex_conv idx hidx, cex_e2 idx]
  have h1 : 0 ≤ negaConv cexPkC cexSkC idx % ((PARAMETER_Q : Nat) : ℤ) :=
    Int.emod_nonneg _ (by simp [PARAMETER_Q])
  rw [add_zero, Int.emod_emod_of_dvd _ dvd_rfl, if_neg (by omega)]

/-- The crafted ring product through a 128-leaf balanced sum: the left
factor vanishes from coefficient 71 on, so the 1024-term sum equals its
first 128 terms. -/
lemma cex_negaConv_eval (k : Nat) :
    negaConv cexPkC cexSkC k =
      sumPow (fun j => if j ≤ k then cexPkC j * cexSkC (k - j)
        else -(cexPkC j * cexSkC (1024 + k - j))) 7 0 := by
  rw [negaConv]
  have hz : ∀ j, 128 ≤ j → j < 128 + 896 →
      (if j ≤ k then cexPkC j * cexSkC (k - j)
        else -(cexPkC j * cexSkC (1024 + k - j))) = 0 := by
    intro j hj1 hj2
    have hpk : cexPkC j = 0 := by
      simp only [cexPkC]
      rw [if_neg (by omega)]
    by_cases hjk : j ≤ k
    · rw [if_pos hjk, hpk]
      ring
    · rw [if_neg hjk, hpk]
      ring
  have hsplit : (1024:Nat) = 128 + 896 := by norm_num
  rw [hsplit, sumTo_prefix_zero _ 128 896 hz]
  exact sumTo_pow _ 7


lemma cex_v64 : SAB_v cexO (KG_pkA cexO) 64 = 3502 := by
  rw [cex_v_eval 64 (by norm_num), cex_negaConv_eval]
  decide

lemma cex_v320 : SAB_v cexO (KG_pkA cexO) 320 = 3502 := by
  rw [cex_v_eval 320 (by norm_num), cex_negaConv_eval]
  decide

lemma cex_v576 : SAB_v cexO (KG_pkA cexO) 576 = 3502 := by
  rw [cex_v_eval 576 (by norm_num), cex_negaConv_eval]
  decide

lemma cex_v832 : SAB_v cexO (KG_pkA cexO) 832 = 3502 := by
  rw [cex_v_eval 832 (by norm_num), cex_negaConv_eval]
  decide

lemma cex_v65 : SAB_v cexO (KG_pkA cexO) 65 = 3934 := by
  rw [cex_v_eval 65 (by norm_num), cex_negaConv_eval]
  decide

lemma cex_v321 : SAB_v cexO (KG_pkA cexO) 321 = 3934 := by
  rw [cex_v_eval 321 (by norm_num), cex_negaConv_eval]
  decide

lemma cex_v577 : SAB_v cexO (KG_pkA cexO) 577 = 3934 := by
  rw [cex_v_eval 577 (by norm_num), cex_negaConv_eval]
  decide

lemma cex_v833 : SAB_v cexO (KG_pkA cexO) 833 = 3934 := by
  rw [cex_v_eval 833 (by norm_num), cex_negaConv_eval]
  decide

lemma cex_v66 : SAB_v cexO (KG_pkA cexO) 66 = 4366 := by
  rw [cex_v_eval 66 (by norm_num), cex_negaConv_eval]
  decide

lemma cex_v322 : SAB_v cexO (KG_pkA cexO) 322 = 4366 := by
  rw [cex_v_eval 322 (by norm_num), cex_negaConv_eval]
  decide

lemma cex_v578 : SAB_v cexO (KG_pkA cexO) 578 = 4366 := by
  rw [cex_v_eval 578 (by norm_num), cex_negaConv_eval]
  decide

lemma cex_v834 : SAB_v cexO (KG_pkA cexO) 834 = 4366 := by
  rw [cex_v_eval 834 (by norm_num), cex_negaConv_eval]
  decide

lemma cex_v67 : SAB_v cexO (KG_pkA cexO) 67 = 4798 := by
  rw [cex_v_eval 67 (by norm_num), cex_negaConv_eval]
  decide

lemma cex_v323 : SAB_v cexO (KG_pkA cexO) 323 = 4798 := by
  rw [cex_v_eval 323 (by norm_num), cex_negaConv_eval]
  decide

lemma cex_v579 : SAB_v cexO (KG_pkA cexO) 579 = 4798 := by
  rw [cex_v_eval 579 (by norm_num), cex_negaConv_eval]
  decide

lemma cex_v835 : SAB_v cexO (KG_pkA cexO) 835 = 4798 := by
  rw [cex_v_eval 835 (by norm_num), cex_negaConv_eval]
  decide

lemma cex_v68 : SAB_v cexO (KG_pkA cexO) 68 = 5230 := by
  rw [cex_v_eval 68 (by norm_num), cex_negaConv_eval]
  decide

lemma cex_v324 : SAB_v cexO (KG_pkA cexO) 324 = 5230 := by
  rw [cex_v_eval 324 (by norm_num), cex_negaConv_eval]
  decide

lemma cex_v580 : SAB_v cexO (KG_pkA cexO) 580 = 5230 := by
  rw [cex_v_eval 580 (by norm_num), cex_negaConv_eval]
  decide

lemma cex_v836 : SAB_v cexO (KG_pkA cexO) 836 = 5230 := by
  rw [cex_v_eval 836 (by norm_num), cex_negaConv_eval]
  decide

lemma cex_v69 : SAB_v cexO (KG_pkA cexO) 69 = 5662 := by
  rw [cex_v_eval 69 (by norm_num), cex_negaConv_eval]
  decide

lemma cex_v325 : SAB_v cexO (KG_pkA cexO) 325 = 5662 := by
  rw [cex_v_eval 325 (by norm_num), cex_negaConv_eval]
  decide

lemma cex_v581 : SAB_v cexO (KG_pkA cexO) 581 = 5662 := by
  rw [cex_v_eval 581 (by norm_num), cex_negaConv_eval]
  decide

lemma cex_v837 : SAB_v cexO (KG_pkA cexO) 837 = 5662 := by
  rw [cex_v_eval 837 (by norm_num), cex_negaConv_eval]
  decide

lemma cex_v70 : SAB_v cexO (KG_pkA cexO) 70 = 6094 := by
  rw [cex_v_eval 70 (by norm_num), cex_negaConv_eval]
  decide

lemma cex_v326 : SAB_v cexO (KG_pkA cexO) 326 = 6094 := by
  rw [cex_v_eval 326 (by norm_num), cex_negaConv_eval]
  decide

lemma cex_v582 : SAB_v cexO (KG_pkA cexO) 582 = 6094 := by
  rw [cex_v_eval 582 (by norm_num), cex_negaConv_eval]
  decide

lemma cex_v838 : SAB_v cexO (KG_pkA cexO) 838 = 6094 := by
  rw [cex_v_eval 838 (by norm_num), cex_negaConv_eval]
  decide

lemma cex_v71 : SAB_v cexO (KG_pkA cexO) 71 = 5662 := by
  rw [cex_v_eval 71 (by norm_num), cex_negaConv_eval]
  decide

lemma cex_v327 : SAB_v cexO (KG_pkA cexO) 327 = 5662 := by
  rw [cex_v_eval 327 (by norm_num), cex_negaConv_eval]
  decide

lemma cex_v583 : SAB_v cexO (KG_pkA cexO) 583 = 5662 := by
  rw [cex_v_eval 583 (by norm_num), cex_negaConv_eval]
  decide

lemma cex_v839 : SAB_v cexO (KG_pkA cexO) 839 = 5662 := by
  rw [cex_v_eval 839 (by norm_num), cex_negaConv_eval]
  decide

lemma cex_r_group (i : Nat) (hi : i < 256) (a b c d : ℤ)
    (ha : SAB_v cexO (KG_pkA cexO) i = a)
    (hb : SAB_v cexO (KG_pkA cexO) (i+256) = b)
    (hc : SAB_v cexO (KG_pkA cexO) (i+512) = c)
    (hd : SAB_v cexO (KG_pkA cexO) (i+768) = d) :
    SAB_r cexO (KG_pkA cexO) i =
      (helpRecGroup a.toNat b.toNat c.toNat d.toNat 0).1 ∧
    SAB_r cexO (KG_pkA cexO) (i+256) =
      (helpRecGroup a.toNat b.toNat c.toNat d.toNat 0).2.1 ∧
    SAB_r cexO (KG_pkA cexO) (i+512) =
      (helpRecGroup a.toNat b.toNat c.toNat d.toNat 0).2.2.1 ∧
    SAB_r cexO (KG_pkA cexO) (i+768) =
      (helpRecGroup a.toNat b.toNat c.toNat d.toNat 0).2.2.2 := by
  have hm0 : i % 256 = i := Nat.mod_eq_of_lt hi
  have hm1 : (i+256) % 256 = i := by omega
  have hm2 : (i+512) % 256 = i := by omega
  have hm3 : (i+768) % 256 = i := by omega
  refine ⟨?_, ?_, ?_, ?_⟩
  · show helpRecPoly (fun k => (SAB_v cexO (KG_pkA cexO) k).toNat) (fun _ => 0) i = _
    simp only [helpRecPoly, hm0, Nat.zero_shiftRight, Nat.zero_and, ha, hb, hc, hd]
    rw [if_pos hi]
  · show helpRecPoly (fun k => (SAB_v cexO (KG_pkA cexO) k).toNat) (fun _ => 0) (i+256) = _
    simp only [helpRecPoly, hm1, Nat.zero_shiftRight, Nat.zero_and, ha, hb, hc, hd]
    rw [if_neg (by omega), if_pos (by omega)]
  · show helpRecPoly (fun k => (SAB_v cexO (KG_pkA cexO) k).toNat) (fun _ => 0) (i+512) = _
    simp only [helpRecPoly, hm2, Nat.zero_shiftRight, Nat.zero_and, ha, hb, hc, hd]
    rw [if_neg (by omega), if_neg (by omega), if_pos (by omega)]
  · show helpRecPoly (fun k => (SAB_v cexO (KG_pkA cexO) k).toNat) (fun _ => 0) (i+768) = _
    simp only [helpRecPoly, hm3, Nat.zero_shiftRight, Nat.zero_and, ha, hb, hc, hd]
    rw [if_neg (by omega), if_neg (by omega), if_neg (by omega)]

lemma cex_r64 :
    SAB_r cexO (KG_pkA cexO) 64 = 0 ∧ SAB_r cexO (KG_pkA cexO) (64+256) = 0 ∧
    SAB_r cexO (KG_pkA cexO) (64+512) = 0 ∧ SAB_r cexO (KG_pkA cexO) (64+768) = 2 := by
  have hg := cex_r_group 64 (by norm_num) 3502 3502 3502 3502
    cex_v64 cex_v320 cex_v576 cex_v832
  refine ⟨?_, ?_, ?_, ?_⟩
  · rw [hg.1]
    decide
  · rw [hg.2.1]
    decide
  · rw [hg.2.2.1]
    decide
  · rw [hg.2.2.2]
    decide

lemma cex_r65 :
    SAB_r cexO (KG_pkA cexO) 65 = 0 ∧ SAB_r cexO (KG_pkA cexO) (65+256) = 0 ∧
    SAB_r cexO (KG_pkA cexO) (65+512) = 0 ∧ SAB_r cexO (KG_pkA cexO) (65+768) = 3 := by
  have hg := cex_r_group 65 (by norm_num) 3934 3934 3934 3934
    cex_v65 cex_v321 cex_v577 cex_v833
  refine ⟨?_, ?_, ?_, ?_⟩
  · rw [hg.1]
    decide
  · rw [hg.2.1]
    decide
  · rw [hg.2.2.1]
    decide
  · rw [hg.2.2.2]
    decide

lemma cex_r66 :
    SAB_r cexO (KG_pkA cexO) 66 = 0 ∧ SAB_r cexO (KG_pkA cexO) (66+256) = 0 ∧
    SAB_r cexO (KG_pkA cexO) (66+512) = 0 ∧ SAB_r cexO (KG_pkA cexO) (66+768) = 3 := by
  have hg := cex_r_group 66 (by norm_num) 4366 4366 4366 4366
    cex_v66 cex_v322 cex_v578 cex_v834
  refine ⟨?_, ?_, ?_, ?_⟩
  · rw [hg.1]
    decide
  · rw [hg.2.1]
    decide
  · rw [hg.2.2.1]
    decide
  · rw [hg.2.2.2]
    decide

lemma cex_r67 :
    SAB_r cexO (KG_pkA cexO) 67 = 0 ∧ SAB_r cexO (KG_pkA cexO) (67+256) = 0 ∧
    SAB_r cexO (KG_pkA cexO) (67+512) = 0 ∧ SAB_r cexO (KG_pkA cexO) (67+768) = 3 := by
  have hg := cex_r_group 67 (by norm_num) 4798 4798 4798 4798
    cex_v67 cex_v323 cex_v579 cex_v835
  refine ⟨?_, ?_, ?_, ?_⟩
  · rw [hg.1]
    decide
  · rw [hg.2.1]
    decide
  · rw [hg.2.2.1]
    decide
  · rw [hg.2.2.2]
    decide

lemma cex_r68 :
    SAB_r cexO (KG_pkA cexO) 68 = 0 ∧ SAB_r cexO (KG_pkA cexO) (68+256) = 0 ∧
    SAB_r cexO (KG_pkA cexO) (68+512) = 0 ∧ SAB_r cexO (KG_pkA cexO) (68+768) = 3 := by
  have hg := cex_r_group 68 (by norm_num) 5230 5230 5230 5230
    cex_v68 cex_v324 cex_v580 cex_v836
  refine ⟨?_, ?_, ?_, ?_⟩
  · rw [hg.1]
    decide
  · rw [hg.2.1]
    decide
  · rw [hg.2.2.1]
    decide
  · rw [hg.2.2.2]
    decide

lemma cex_r69 :
    SAB_r cexO (KG_pkA cexO) 69 = 0 ∧ SAB_r cexO (KG_pkA cexO) (69+256) = 0 ∧
    SAB_r cexO (KG_pkA cexO) (69+512) = 0 ∧ SAB_r cexO (KG_pkA cexO) (69+768) = 0 := by
  have hg := cex_r_group 69 (by norm_num) 5662 5662 5662 5662
    cex_v69 cex_v325 cex_v581 cex_v837
  refine ⟨?_, ?_, ?_, ?_⟩
  · rw [hg.1]
    decide
  · rw [hg.2.1]
    decide
  · rw [hg.2.2.1]
    decide
  · rw [hg.2.2.2]
    decide

lemma cex_r70 :
    SAB_r cexO (KG_pkA cexO) 70 = 0 ∧ SAB_r cexO (KG_pkA cexO) (70+256) = 0 ∧
    SAB_r cexO (KG_pkA cexO) (70+512) = 0 ∧ SAB_r cexO (KG_pkA cexO) (70+768) = 0 := by
  have hg := cex_r_group 70 (by norm_num) 6094 6094 6094 6094
    cex_v70 cex_v326 cex_v582 cex_v838
  refine ⟨?_, ?_, ?_, ?_⟩
  · rw [hg.1]
    decide
  · rw [hg.2.1]
    decide
  · rw [hg.2.2.1]
    decide
  · rw [hg.2.2.2]
    decide

lemma cex_r71 :
    SAB_r cexO (KG_pkA cexO) 71 = 0 ∧ SAB_r cexO (KG_pkA cexO) (71+256) = 0 ∧
    SAB_r cexO (KG_pkA cexO) (71+512) = 0 ∧ SAB_r cexO (KG_pkA cexO) (71+768) = 0 := by
  have hg := cex_r_group 71 (by norm_num) 5662 5662 5662 5662
    cex_v71 cex_v327 cex_v583 cex_v839
  refine ⟨?_, ?_, ?_, ?_⟩
  · rw [hg.1]
    decide
  · rw [hg.2.1]
    decide
  · rw [hg.2.2.1]
    decide
  · rw [hg.2.2.2]
    decide

lemma cex_bit_eval (i : Nat) (a b c d : ℤ) (r0 r1 r2 r3 : Nat)
    (ha : SAB_v cexO (KG_pkA cexO) i = a)
    (hb : SAB_v cexO (KG_pkA cexO) (i+256) = b)
    (hc : SAB_v cexO (KG_pkA cexO) (i+512) = c)
    (hd : SAB_v cexO (KG_pkA cexO) (i+768) = d)
    (h0 : SAB_r cexO (KG_pkA cexO) i = r0)
    (h1 : SAB_r cexO (KG_pkA cexO) (i+256) = r1)
    (h2 : SAB_r cexO (KG_pkA cexO) (i+512) = r2)
    (h3 : SAB_r cexO (KG_pkA cexO) (i+768) = r3) :
    recBit (fun k => (SAB_v cexO (KG_pkA cexO) k).toNat) (SAB_r cexO (KG_pkA cexO)) i =
      LDDecode (recT a.toNat (2*r0+r3)) (recT b.toNat (2*r1+r3))
        (recT c.toNat (2*r2+r3)) (recT d.toNat r3) := by
  simp only [recBit, ha, hb, hc, hd, h0, h1, h2, h3]

lemma cex_w : ∀ j, j < 1024 →
    SAA_w (SAB_pkB cexO (KG_pkA cexO)) (KG_skA cexO) j = 0 := by
  intro j hj
  have hconv : negaConv (KG_skA cexO)
      (fun k => (((decode_B (SAB_pkB cexO (KG_pkA cexO))).1 k : Nat) : ℤ)) j = 0 :=
    negaConv_eq_zero_left _ _ j cex_skA
  simp only [SAA_w, correction, two_reduce12289, INTT_GS_rev2std_12289, pmul, hconv]
  norm_num

lemma cex_rv : ∀ j, j < 1024 →
    (decode_B (SAB_pkB cexO (KG_pkA cexO))).2 j = SAB_r cexO (KG_pkA cexO) j := by
  intro j hj
  exact decode_encode_hint _ _ j hj (fun t ht => helpRecPoly_le3 _ _ t)

lemma cex_bitA_eval (i : Nat) (hi : i < 256) (r0 r1 r2 r3 : Nat)
    (h0 : SAB_r cexO (KG_pkA cexO) i = r0)
    (h1 : SAB_r cexO (KG_pkA cexO) (i+256) = r1)
    (h2 : SAB_r cexO (KG_pkA cexO) (i+512) = r2)
    (h3 : SAB_r cexO (KG_pkA cexO) (i+768) = r3) :
    recBit (fun k => (SAA_w (SAB_pkB cexO (KG_pkA cexO)) (KG_skA cexO) k).toNat)
      (decode_B (SAB_pkB cexO (KG_pkA cexO))).2 i =
      LDDecode (recT 0 (2*r0+r3)) (recT 0 (2*r1+r3)) (recT 0 (2*r2+r3)) (recT 0 r3) := by
  rw [recBit_congr (fun k => (SAA_w (SAB_pkB cexO (KG_pkA cexO)) (KG_skA cexO) k).toNat)
    (SAB_r cexO (KG_pkA cexO)) ((decode_B (SAB_pkB cexO (KG_pkA cexO))).2) i
    (cex_rv i (by omega)) (cex_rv (i+256) (by omega))
    (cex_rv (i+512) (by omega)) (cex_rv (i+768) (by omega))]
  have hw0 : (SAA_w (SAB_pkB cexO (KG_pkA cexO)) (KG_skA cexO) i).toNat = 0 := by
    rw [cex_w i (by omega)]
    rfl
  have hw1 : (SAA_w (SAB_pkB cexO (KG_pkA cexO)) (KG_skA cexO) (i+256)).toNat = 0 := by
    rw [cex_w (i+256) (by omega)]
    rfl
  have hw2 : (SAA_w (SAB_pkB cexO (KG_pkA cexO)) (KG_skA cexO) (i+512)).toNat = 0 := by
    rw [cex_w (i+512) (by omega)]
    rfl
  have hw3 : (SAA_w (SAB_pkB cexO (KG_pkA cexO)) (KG_skA cexO) (i+768)).toNat = 0 := by
    rw [cex_w (i+768) (by omega)]
    rfl
  simp only [recBit, h0, h1, h2, h3, hw0, hw1, hw2, hw3]

lemma cex_bitB64 :
    recBit (fun k => (SAB_v cexO (KG_pkA cexO) k).toNat) (SAB_r cexO (KG_pkA cexO)) 64 = 1 := by
  rw [cex_bit_eval 64 3502 3502 3502 3502 0 0 0 2
    cex_v64 cex_v320 cex_v576 cex_v832
    cex_r64.1 cex_r64.2.1 cex_r64.2.2.1 cex_r64.2.2.2]
  decide

lemma cex_bitB65 :
    recBit (fun k => (SAB_v cexO (KG_pkA cexO) k).toNat) (SAB_r cexO (KG_pkA cexO)) 65 = 1 := by
  rw [cex_bit_eval 65 3934 3934 3934 3934 0 0 0 3
    cex_v65 cex_v321 cex_v577 cex_v833
    cex_r65.1 cex_r65.2.1 cex_r65.2.2.1 cex_r65.2.2.2]
  decide

lemma cex_bitB66 :
    recBit (fun k => (SAB_v cexO (KG_pkA cexO) k).toNat) (SAB_r cexO (KG_pkA cexO)) 66 = 1 := by
  rw [cex_bit_eval 66 4366 4366 4366 4366 0 0 0 3
    cex_v66 cex_v322 cex_v578 cex_v834
    cex_r66.1 cex_r66.2.1 cex_r66.2.2.1 cex_r66.2.2.2]
  decide

lemma cex_bitB67 :
    recBit (fun k => (SAB_v cexO (KG_pkA cexO) k).toNat) (SAB_r cexO (KG_pkA cexO)) 67 = 1 := by
  rw [cex_bit_eval 67 4798 4798 4798 4798 0 0 0 3
    cex_v67 cex_v323 cex_v579 cex_v835
    cex_r67.1 cex_r67.2.1 cex_r67.2.2.1 cex_r67.2.2.2]
  decide

lemma cex_bitB68 :
    recBit (fun k => (SAB_v cexO (KG_pkA cexO) k).toNat) (SAB_r cexO (KG_pkA cexO)) 68 = 1 := by
  rw [cex_bit_eval 68 5230 5230 5230 5230 0 0 0 3
    cex_v68 cex_v324 cex_v580 cex_v836
    cex_r68.1 cex_r68.2.1 cex_r68.2.2.1 cex_r68.2.2.2]
  decide

lemma cex_bitB69 :
    recBit (fun k => (SAB_v cexO (KG_pkA cexO) k).toNat) (SAB_r cexO (KG_pkA cexO)) 69 = 0 := by
  rw [cex_bit_eval 69 5662 5662 5662 5662 0 0 0 0
    cex_v69 cex_v325 cex_v581 cex_v837
    cex_r69.1 cex_r69.2.1 cex_r69.2.2.1 cex_r69.2.2.2]
  decide

lemma cex_bitB70 :
    recBit (fun k => (SAB_v cexO (KG_pkA cexO) k).toNat) (SAB_r cexO (KG_pkA cexO)) 70 = 0 := by
  rw [cex_bit_eval 70 6094 6094 6094 6094 0 0 0 0
    cex_v70 cex_v326 cex_v582 cex_v838
    cex_r70.1 cex_r70.2.1 cex_r70.2.2.1 cex_r70.2.2.2]
  decide

lemma cex_bitB71 :
    recBit (fun k => (SAB_v cexO (KG_pkA cexO) k).toNat) (SAB_r cexO (KG_pkA cexO)) 71 = 0 := by
  rw [cex_bit_eval 71 5662 5662 5662 5662 0 0 0 0
    cex_v71 cex_v327 cex_v583 cex_v839
    cex_r71.1 cex_r71.2.1 cex_r71.2.2.1 cex_r71.2.2.2]
  decide

lemma cex_bitA64 :
    recBit (fun k => (SAA_w (SAB_pkB cexO (KG_pkA cexO)) (KG_skA cexO) k).toNat)
      (decode_B (SAB_pkB cexO (KG_pkA cexO))).2 64 = 1 := by
  rw [cex_bitA_eval 64 (by norm_num) 0 0 0 2
    cex_r64.1 cex_r64.2.1 cex_r64.2.2.1 cex_r64.2.2.2]
  decide

lemma cex_bitA65 :
    recBit (fun k => (SAA_w (SAB_pkB cexO (KG_pkA cexO)) (KG_skA cexO) k).toNat)
      (decode_B (SAB_pkB cexO (KG_pkA cexO))).2 65 = 0 := by
  rw [cex_bitA_eval 65 (by norm_num) 0 0 0 3
    cex_r65.1 cex_r65.2.1 cex_r65.2.2.1 cex_r65.2.2.2]
  decide

lemma cex_bitA66 :
    recBit (fun k => (SAA_w (SAB_pkB cexO (KG_pkA cexO)) (KG_skA cexO) k).toNat)
      (decode_B (SAB_pkB cexO (KG_pkA cexO))).2 66 = 0 := by
  rw [cex_bitA_eval 66 (by norm_num) 0 0 0 3
    cex_r66.1 cex_r66.2.1 cex_r66.2.2.1 cex_r66.2.2.2]
  decide

lemma cex_bitA67 :
    recBit (fun k => (SAA_w (SAB_pkB cexO (KG_pkA cexO)) (KG_skA cexO) k).toNat)
      (decode_B (SAB_pkB cexO (KG_pkA cexO))).2 67 = 0 := by
  rw [cex_bitA_eval 67 (by norm_num) 0 0 0 3
    cex_r67.1 cex_r67.2.1 cex_r67.2.2.1 cex_r67.2.2.2]
  decide

lemma cex_bitA68 :
    recBit (fun k => (SAA_w (SAB_pkB cexO (KG_pkA cexO)) (KG_skA cexO) k).toNat)
      (decode_B (SAB_pkB cexO (KG_pkA cexO))).2 68 = 0 := by
  rw [cex_bitA_eval 68 (by norm_num) 0 0 0 3
    cex_r68.1 cex_r68.2.1 cex_r68.2.2.1 cex_r68.2.2.2]
  decide

lemma cex_bitA69 :
    recBit (fun k => (SAA_w (SAB_pkB cexO (KG_pkA cexO)) (KG_skA cexO) k).toNat)
      (decode_B (SAB_pkB cexO (KG_pkA cexO))).2 69 = 1 := by
  rw [cex_bitA_eval 69 (by norm_num) 0 0 0 0
    cex_r69.1 cex_r69.2.1 cex_r69.2.2.1 cex_r69.2.2.2]
  decide

lemma cex_bitA70 :
    recBit (fun k => (SAA_w (SAB_pkB cexO (KG_pkA cexO)) (KG_skA cexO) k).toNat)
      (decode_B (SAB_pkB cexO (KG_pkA cexO))).2 70 = 1 := by
  rw [cex_bitA_eval 70 (by norm_num) 0 0 0 0
    cex_r70.1 cex_r70.2.1 cex_r70.2.2.1 cex_r70.2.2.2]
  decide

lemma cex_bitA71 :
    recBit (fun k => (SAA_w (SAB_pkB cexO (KG_pkA cexO)) (KG_skA cexO) k).toNat)
      (decode_B (SAB_pkB cexO (KG_pkA cexO))).2 71 = 1 := by
  rw [cex_bitA_eval 71 (by norm_num) 0 0 0 0
    cex_r71.1 cex_r71.2.1 cex_r71.2.2.1 cex_r71.2.2.2]
  decide


/-- Claim C4 theorem. Both orchestrators return the status of the first
failing oracle call unchanged (success when none fails), and on every
failing run of SecretAgreement_B the SharedSecretB and PublicKeyB
out-buffers are exactly their prior contents: they are written only on
the all-success path. -/
theorem C4_errors_propagate (O : Oracles) (skA0 : Nat → ℤ) (pkA0 : Nat → Nat)
    (e0 : Nat → ℤ) (es0 : Nat → Nat) (PublicKeyA ssB0 pkB0 : Nat → Nat)
    (skB0 eB0 : Nat → ℤ) (rvB0 : Nat → Nat) :
    (KeyGeneration_A O skA0 pkA0 e0 es0).status = KG_firstFailure O ∧
    (SecretAgreement_B O PublicKeyA ssB0 pkB0 skB0 eB0 rvB0).status =
      SAB_firstFailure O PublicKeyA ∧
    ((SecretAgreement_B O PublicKeyA ssB0 pkB0 skB0 eB0 rvB0).status ≠ CRYPTO_SUCCESS →
      (SecretAgreement_B O PublicKeyA ssB0 pkB0 skB0 eB0 rvB0).SharedSecretB = ssB0 ∧
      (SecretAgreement_B O PublicKeyA ssB0 pkB0 skB0 eB0 rvB0).PublicKeyB = pkB0) := by
  refine ⟨?_, ?_, ?_⟩
  · simp only [KeyGeneration_A, KG_firstFailure, get_error]
    by_cases h0 : (O.randomBytes 0 SEED_BYTES).1 = CRYPTO_SUCCESS <;> simp [h0]
    by_cases h1 : (O.randomBytes 1 ERROR_SEED_BYTES).1 = CRYPTO_SUCCESS <;> simp [h1]
    by_cases h2 : (generate_a O (O.randomBytes 0 SEED_BYTES).2).1 = CRYPTO_SUCCESS <;>
      simp [h2]
    by_cases h3 : (O.stream (O.randomBytes 1 ERROR_SEED_BYTES).2 (get_error_nonce 0)
        (3*PARAMETER_N)).1 = CRYPTO_SUCCESS <;> simp [h3]
    by_cases h4 : (O.stream (O.randomBytes 1 ERROR_SEED_BYTES).2 (get_error_nonce 1)
        (3*PARAMETER_N)).1 = CRYPTO_SUCCESS <;> simp [h4]
  · simp only [SecretAgreement_B, SAB_firstFailure, get_error, HelpRec]
    by_cases h0 : (O.randomBytes 0 ERROR_SEED_BYTES).1 = CRYPTO_SUCCESS <;> simp [h0]
    by_cases h1 : (generate_a O (decode_A PublicKeyA).2).1 = CRYPTO_SUCCESS <;> simp [h1]
    by_cases h2 : (O.stream (O.randomBytes 0 ERROR_SEED_BYTES).2 (get_error_nonce 0)
        (3*PARAMETER_N)).1 = CRYPTO_SUCCESS <;> simp [h2]
    by_cases h3 : (O.stream (O.randomBytes 0 ERROR_SEED_BYTES).2 (get_error_nonce 1)
        (3*PARAMETER_N)).1 = CRYPTO_SUCCESS <;> simp [h3]
    by_cases h4 : (O.stream (O.randomBytes 0 ERROR_SEED_BYTES).2 (get_error_nonce 2)
        (3*PARAMETER_N)).1 = CRYPTO_SUCCESS <;> simp [h4]
    by_cases h5 : (O.stream (O.randomBytes 0 ERROR_SEED_BYTES).2 (HelpRec_nonce 3)
        32).1 = CRYPTO_SUCCESS <;> simp [h5]
  · intro hfail
    revert hfail
    simp only [SecretAgreement_B, get_error, HelpRec]
    by_cases h0 : (O.randomBytes 0 ERROR_SEED_BYTES).1 = CRYPTO_SUCCESS <;> simp [h0]
    by_cases h1 : (generate_a O (decode_A PublicKeyA).2).1 = CRYPTO_SUCCESS <;> simp [h1]
    by_cases h2 : (O.stream (O.randomBytes 0 ERROR_SEED_BYTES).2 (get_error_nonce 0)
        (3*PARAMETER_N)).1 = CRYPTO_SUCCESS <;> simp [h2]
    by_cases h3 : (O.stream (O.randomBytes 0 ERROR_SEED_BYTES).2 (get_error_nonce 1)
        (3*PARAMETER_N)).1 = CRYPTO_SUCCESS <;> simp [h3]
    by_cases h4 : (O.stream (O.randomBytes 0 ERROR_SEED_BYTES).2 (get_error_nonce 2)
        (3*PARAMETER_N)).1 = CRYPTO_SUCCESS <;> simp [h4]
    by_cases h5 : (O.stream (O.randomBytes 0 ERROR_SEED_BYTES).2 (HelpRec_nonce 3)
        32).1 = CRYPTO_SUCCESS <;> simp [h5]

/-- Oracle triple whose stream oracle succeeds only for the byte-0 nonce
of value 0 (with output byte 0 equal to 1) and fails with CRYPTO_ERROR
for every other nonce; random bytes and the XOF always succeed. -/
def failingOracles : Oracles :=
  ⟨fun _ _ => (CRYPTO_SUCCESS, fun _ => 0),
   fun _ => (CRYPTO_SUCCESS, fun _ => 0),
   fun _ nonce _ =>
     if nonce = get_error_nonce 0 then
       (CRYPTO_SUCCESS, fun i => if i = 0 then 1 else 0)
     else (CRYPTO_ERROR, fun _ => 0)⟩

/-- Claim C4 witness: the theorem applied to the concrete failing oracle
triple (its SecretAgreement_B run fails at the nonce-1 stream call). -/
theorem C4_errors_propagate_witness :
    (SecretAgreement_B failingOracles zeroBytes zeroBytes zeroBytes zeroPoly zeroPoly
       zeroBytes).status ≠ CRYPTO_SUCCESS ∧
    (SecretAgreement_B failingOracles zeroBytes zeroBytes zeroBytes zeroPoly zeroPoly
       zeroBytes).SharedSecretB = zeroBytes ∧
    (SecretAgreement_B failingOracles zeroBytes zeroBytes zeroBytes zeroPoly zeroPoly
       zeroBytes).PublicKeyB = zeroBytes :=
  ⟨by decide,
   (C4_errors_propagate failingOracles zeroPoly zeroBytes zeroPoly zeroBytes zeroBytes
      zeroBytes zeroBytes zeroPoly zeroPoly zeroBytes).2.2 (by decide)⟩

/-- Claim C5 counterexample. With the failing oracle triple, the run of
KeyGeneration_A samples the secret s into the caller's SecretKeyA buffer
(the nonce-0 stream call succeeds and its first sampled coefficient is
1), then fails at the nonce-1 stream call; the claim requires SecretKeyA
to be zero on return, but the cleanup (kex.c lines 427-429) zeroes only
e and error_seed, and SecretKeyA still holds the sampled s. -/
theorem C5_counterexample :
    (KeyGeneration_A failingOracles zeroPoly zeroBytes zeroPoly zeroBytes).status =
      CRYPTO_ERROR ∧
    (KeyGeneration_A failingOracles zeroPoly zeroBytes zeroPoly zeroBytes).SecretKeyA 0 =
      1 ∧
    ¬ (∀ k, k < PARAMETER_N →
        (KeyGeneration_A failingOracles zeroPoly zeroBytes zeroPoly zeroBytes).SecretKeyA
          k = 0) := by
  refine ⟨by decide, by decide, ?_⟩
  intro h
  have h0 := h 0 (by decide)
  revert h0
  decide

/-- Claim C5 amended theorem. On every failing run of KeyGeneration_A
past the first oracle call, the sensitive locals e and error_seed are
zero on return; the caller-supplied SecretKeyA buffer, however, is not
zeroed: on the run that fails at the nonce-1 stream call (after s was
sampled), SecretKeyA still holds the sampled secret s. -/
theorem C5_cleanup_zeroes (O : Oracles) (skA0 : Nat → ℤ) (pkA0 : Nat → Nat)
    (e0 : Nat → ℤ) (es0 : Nat → Nat)
    (hr0 : (O.randomBytes 0 SEED_BYTES).1 = CRYPTO_SUCCESS)
    (hfail : (KeyGeneration_A O skA0 pkA0 e0 es0).status ≠ CRYPTO_SUCCESS) :
    (KeyGeneration_A O skA0 pkA0 e0 es0).e = zeroPoly ∧
    (KeyGeneration_A O skA0 pkA0 e0 es0).error_seed = zeroBytes ∧
    ((O.randomBytes 1 ERROR_SEED_BYTES).1 = CRYPTO_SUCCESS →
     (generate_a O (O.randomBytes 0 SEED_BYTES).2).1 = CRYPTO_SUCCESS →
     (O.stream (O.randomBytes 1 ERROR_SEED_BYTES).2 (get_error_nonce 0)
        (3*PARAMETER_N)).1 = CRYPTO_SUCCESS →
      (KeyGeneration_A O skA0 pkA0 e0 es0).SecretKeyA =
        sample (O.stream (O.randomBytes 1 ERROR_SEED_BYTES).2 (get_error_nonce 0)
          (3*PARAMETER_N)).2) := by
  revert hfail
  simp only [KeyGeneration_A, get_error]
  simp only [hr0]
  by_cases h1 : (O.randomBytes 1 ERROR_SEED_BYTES).1 = CRYPTO_SUCCESS <;> simp [h1]
  by_cases h2 : (generate_a O (O.randomBytes 0 SEED_BYTES).2).1 = CRYPTO_SUCCESS <;>
    simp [h2]
  by_cases h3 : (O.stream (O.randomBytes 1 ERROR_SEED_BYTES).2 (get_error_nonce 0)
      (3*PARAMETER_N)).1 = CRYPTO_SUCCESS <;> simp [h3]
  by_cases h4 : (O.stream (O.randomBytes 1 ERROR_SEED_BYTES).2 (get_error_nonce 1)
      (3*PARAMETER_N)).1 = CRYPTO_SUCCESS <;> simp [h4]

/-- Claim C5 witness: the amended theorem applied to the failing oracle
triple. -/
theorem C5_cleanup_zeroes_witness :
    (KeyGeneration_A failingOracles zeroPoly zeroBytes zeroPoly zeroBytes).e = zeroPoly ∧
    (KeyGeneration_A failingOracles zeroPoly zeroBytes zeroPoly zeroBytes).error_seed =
      zeroBytes :=
  ⟨(C5_cleanup_zeroes failingOracles zeroPoly zeroBytes zeroPoly zeroBytes (by decide)
      (by decide)).1,
   (C5_cleanup_zeroes failingOracles zeroPoly zeroBytes zeroPoly zeroBytes (by decide)
      (by decide)).2.1⟩

/-- Claim C9 theorem. SecretAgreement_A returns CRYPTO_SUCCESS for every
input: it takes no oracles, its status is initialised to CRYPTO_SUCCESS
and never modified, and it performs no validation of its buffers. -/
theorem C9_SecretAgreement_A_always_succeeds (PublicKeyB : Nat → Nat)
    (SecretKeyA : Nat → ℤ) (SharedSecretA0 : Nat → Nat) :
    (SecretAgreement_A PublicKeyB SecretKeyA SharedSecretA0).1 = CRYPTO_SUCCESS := rfl

/-- Claim C10 theorem. get_error writes its nonce into byte 0 of the
zero-initialised 8-byte stream nonce while HelpRec writes its nonce into
byte 1, so the four stream-oracle nonces of one protocol run (get_error
nonces 0, 1, 2 and HelpRec nonce 3, all under the same error seed) are
pairwise distinct 8-byte strings: the hint randomness comes from a
stream distinct from every error-sampling stream. -/
theorem C10_nonce_separation :
    List.Pairwise (· ≠ ·)
      [get_error_nonce 0, get_error_nonce 1, get_error_nonce 2, HelpRec_nonce 3] ∧
    get_error_nonce 0 = [0, 0, 0, 0, 0, 0, 0, 0] ∧
    get_error_nonce 1 = [1, 0, 0, 0, 0, 0, 0, 0] ∧
    get_error_nonce 2 = [2, 0, 0, 0, 0, 0, 0, 0] ∧
    HelpRec_nonce 3 = [0, 3, 0, 0, 0, 0, 0, 0] ∧
    (get_error_nonce 0).length = NONCE_SEED_BYTES ∧
    (HelpRec_nonce 3).length = NONCE_SEED_BYTES := by
  refine ⟨?_, by decide, by decide, by decide, by decide, by decide, by decide⟩
  decide

lemma correction_two_reduce_toNat_lt (p : Nat → ℤ) (k : Nat) :
    (correction (two_reduce12289 p) k).toNat < PARAMETER_Q := by
  have h := correction_two_reduce_bound p k
  omega

/-- One byte of RecKey from its eight group bits. -/
lemma RecKey_byte (x r : Nat → Nat) (k b0 b1 b2 b3 b4 b5 b6 b7 : Nat)
    (h0 : recBit x r (8*k) = b0) (h1 : recBit x r (8*k+1) = b1)
    (h2 : recBit x r (8*k+2) = b2) (h3 : recBit x r (8*k+3) = b3)
    (h4 : recBit x r (8*k+4) = b4) (h5 : recBit x r (8*k+5) = b5)
    (h6 : recBit x r (8*k+6) = b6) (h7 : recBit x r (8*k+7) = b7) :
    RecKey x r k = b0 + b1 * 2 + b2 * 4 + b3 * 8 + b4 * 16 + b5 * 32 +
      b6 * 64 + b7 * 128 := by
  simp only [RecKey, h0, h1, h2, h3, h4, h5, h6, h7]

/-- Claim C1 amended theorem. For every honest run of the protocol
(KeyGeneration_A, then SecretAgreement_B on PublicKeyA, then
SecretAgreement_A on PublicKeyB) in which all oracle calls succeed, if
every reconciliation group clears the decoding margin -- the sum of the
B-side lane distances to the nearest multiple of 8q, padded by 8 times
the summed cyclic distances mod q between the A-side and B-side shared
polynomials on the group, stays on one side of the 8q threshold -- then
the 32-byte shared secret computed by SecretAgreement_A equals the one
computed by SecretAgreement_B, byte for byte. -/
theorem C1_shared_secrets_agree (O : Oracles)
    (skA0 : Nat → ℤ) (pkA0 : Nat → Nat) (e0 : Nat → ℤ) (es0 : Nat → Nat)
    (ssB0 pkB0 : Nat → Nat) (skB0 eB0 : Nat → ℤ) (rvB0 : Nat → Nat)
    (ssA0 : Nat → Nat)
    (hA1 : (O.randomBytes 0 SEED_BYTES).1 = CRYPTO_SUCCESS)
    (hA2 : (O.randomBytes 1 ERROR_SEED_BYTES).1 = CRYPTO_SUCCESS)
    (hA3 : (O.xof (O.randomBytes 0 SEED_BYTES).2).1 = CRYPTO_SUCCESS)
    (hA4 : (O.stream (O.randomBytes 1 ERROR_SEED_BYTES).2 (get_error_nonce 0)
      (3*PARAMETER_N)).1 = CRYPTO_SUCCESS)
    (hA5 : (O.stream (O.randomBytes 1 ERROR_SEED_BYTES).2 (get_error_nonce 1)
      (3*PARAMETER_N)).1 = CRYPTO_SUCCESS)
    (hB1 : (O.randomBytes 0 ERROR_SEED_BYTES).1 = CRYPTO_SUCCESS)
    (hB2 : (O.xof (decode_A (KG_pkA O)).2).1 = CRYPTO_SUCCESS)
    (hB3 : (O.stream (O.randomBytes 0 ERROR_SEED_BYTES).2 (get_error_nonce 0)
      (3*PARAMETER_N)).1 = CRYPTO_SUCCESS)
    (hB4 : (O.stream (O.randomBytes 0 ERROR_SEED_BYTES).2 (get_error_nonce 1)
      (3*PARAMETER_N)).1 = CRYPTO_SUCCESS)
    (hB5 : (O.stream (O.randomBytes 0 ERROR_SEED_BYTES).2 (get_error_nonce 2)
      (3*PARAMETER_N)).1 = CRYPTO_SUCCESS)
    (hB6 : (O.stream (O.randomBytes 0 ERROR_SEED_BYTES).2 (HelpRec_nonce 3)
      32).1 = CRYPTO_SUCCESS)
    (hmargin : ∀ i, i < 256 →
      groupMargin (honestWN O) (honestVN O) (SAB_r O (KG_pkA O)) i) :
    ∀ k, k < 32 →
      (SecretAgreement_A
        (SecretAgreement_B O (KeyGeneration_A O skA0 pkA0 e0 es0).PublicKeyA
          ssB0 pkB0 skB0 eB0 rvB0).PublicKeyB
        (KeyGeneration_A O skA0 pkA0 e0 es0).SecretKeyA ssA0).2 k =
      (SecretAgreement_B O (KeyGeneration_A O skA0 pkA0 e0 es0).PublicKeyA
        ssB0 pkB0 skB0 eB0 rvB0).SharedSecretB k := by
  intro k hk
  have hKG := KG_success_reduce O skA0 pkA0 e0 es0 hA1 hA2 hA3 hA4 hA5
  have hpkA : (KeyGeneration_A O skA0 pkA0 e0 es0).PublicKeyA = KG_pkA O := by
    rw [hKG]
  have hskA : (KeyGeneration_A O skA0 pkA0 e0 es0).SecretKeyA = KG_skA O := by
    rw [hKG]
  rw [hpkA, hskA]
  have hSAB := SAB_success_reduce O (KG_pkA O) ssB0 pkB0 skB0 eB0 rvB0
    hB1 hB2 hB3 hB4 hB5 hB6
  have hssB : (SecretAgreement_B O (KG_pkA O) ssB0 pkB0 skB0 eB0 rvB0).SharedSecretB =
      RecKey (fun k2 => (SAB_v O (KG_pkA O) k2).toNat) (SAB_r O (KG_pkA O)) := by
    rw [hSAB]
  have hpkB : (SecretAgreement_B O (KG_pkA O) ssB0 pkB0 skB0 eB0 rvB0).PublicKeyB =
      SAB_pkB O (KG_pkA O) := by
    rw [hSAB]
  rw [hssB, hpkB, SAA_eq]
  have hx : ∀ j, j < 1024 → honestWN O j < PARAMETER_Q := by
    intro j hj
    exact correction_two_reduce_toNat_lt _ j
  have hy : ∀ j, j < 1024 → honestVN O j < PARAMETER_Q := by
    intro j hj
    exact correction_two_reduce_toNat_lt _ j
  have hr : ∀ j, j < 1024 → SAB_r O (KG_pkA O) j ≤ 3 := by
    intro j hj
    exact helpRecPoly_le3 _ _ j
  have hrv : ∀ j, j < 1024 →
      (decode_B (SAB_pkB O (KG_pkA O))).2 j = SAB_r O (KG_pkA O) j := by
    intro j hj
    exact decode_encode_hint _ _ j hj (fun t ht => helpRecPoly_le3 _ _ t)
  exact RecKey_eq_of_margin (honestWN O) (honestVN O) (SAB_r O (KG_pkA O))
    ((decode_B (SAB_pkB O (KG_pkA O))).2) hx hy hr hrv hmargin k hk

/-- Claim C1 witness: the amended theorem applied to the always-succeeding
all-zero oracle triple, whose run clears every group margin, at byte 8. -/
theorem C1_shared_secrets_agree_witness :
    (SecretAgreement_A
      (SecretAgreement_B zeroOracles
        (KeyGeneration_A zeroOracles zeroPoly zeroBytes zeroPoly zeroBytes).PublicKeyA
        zeroBytes zeroBytes zeroPoly zeroPoly zeroBytes).PublicKeyB
      (KeyGeneration_A zeroOracles zeroPoly zeroBytes zeroPoly zeroBytes).SecretKeyA
      zeroBytes).2 8 =
    (SecretAgreement_B zeroOracles
      (KeyGeneration_A zeroOracles zeroPoly zeroBytes zeroPoly zeroBytes).PublicKeyA
      zeroBytes zeroBytes zeroPoly zeroPoly zeroBytes).SharedSecretB 8 :=
  C1_shared_secrets_agree zeroOracles zeroPoly zeroBytes zeroPoly zeroBytes
    zeroBytes zeroBytes zeroPoly zeroPoly zeroBytes zeroBytes
    rfl rfl rfl rfl rfl rfl rfl rfl rfl rfl rfl
    zeroOracles_margin 8 (by decide)

/-- Claim C1 counterexample. The crafted oracle triple cexO conforms to
the oracle contracts (every call succeeds, random and stream outputs are
bytes, the XOF polynomial is canonical) and the honest run of the three
orchestrated calls succeeds end to end, yet byte 8 of the responder
shared secret is 31 while byte 8 of the initiator shared secret is 225:
the crafted errors put the responder decision vector of groups 64..71 at
or past the 8q reconciliation threshold, so the claimed unconditional
equality of the two 32-byte shared secrets fails. -/
theorem C1_counterexample :
    (∀ n len i, (cexO.randomBytes n len).2 i < 256) ∧
    (∀ s k, (cexO.xof s).2 k < PARAMETER_Q) ∧
    (∀ key nce len i, (cexO.stream key nce len).2 i < 256) ∧
    (∀ n len, (cexO.randomBytes n len).1 = CRYPTO_SUCCESS) ∧
    (∀ s, (cexO.xof s).1 = CRYPTO_SUCCESS) ∧
    (∀ key nce len, (cexO.stream key nce len).1 = CRYPTO_SUCCESS) ∧
    (KeyGeneration_A cexO zeroPoly zeroBytes zeroPoly zeroBytes).status =
      CRYPTO_SUCCESS ∧
    (SecretAgreement_B cexO
      (KeyGeneration_A cexO zeroPoly zeroBytes zeroPoly zeroBytes).PublicKeyA
      zeroBytes zeroBytes zeroPoly zeroPoly zeroBytes).status = CRYPTO_SUCCESS ∧
    (SecretAgreement_A
      (SecretAgreement_B cexO
        (KeyGeneration_A cexO zeroPoly zeroBytes zeroPoly zeroBytes).PublicKeyA
        zeroBytes zeroBytes zeroPoly zeroPoly zeroBytes).PublicKeyB
      (KeyGeneration_A cexO zeroPoly zeroBytes zeroPoly zeroBytes).SecretKeyA
      zeroBytes).1 = CRYPTO_SUCCESS ∧
    (SecretAgreement_B cexO
      (KeyGeneration_A cexO zeroPoly zeroBytes zeroPoly zeroBytes).PublicKeyA
      zeroBytes zeroBytes zeroPoly zeroPoly zeroBytes).SharedSecretB 8 = 31 ∧
    (SecretAgreement_A
      (SecretAgreement_B cexO
        (KeyGeneration_A cexO zeroPoly zeroBytes zeroPoly zeroBytes).PublicKeyA
        zeroBytes zeroBytes zeroPoly zeroPoly zeroBytes).PublicKeyB
      (KeyGeneration_A cexO zeroPoly zeroBytes zeroPoly zeroBytes).SecretKeyA
      zeroBytes).2 8 = 225 := by
  have hKG := KG_success_reduce cexO zeroPoly zeroBytes zeroPoly zeroBytes
    rfl rfl rfl rfl rfl
  have hpkA : (KeyGeneration_A cexO zeroPoly zeroBytes zeroPoly zeroBytes).PublicKeyA =
      KG_pkA cexO := by
    rw [hKG]
  have hskA : (KeyGeneration_A cexO zeroPoly zeroBytes zeroPoly zeroBytes).SecretKeyA =
      KG_skA cexO := by
    rw [hKG]
  have hSAB := SAB_success_reduce cexO (KG_pkA cexO) zeroBytes zeroBytes zeroPoly
    zeroPoly zeroBytes rfl rfl rfl rfl rfl rfl
  have hssB : (SecretAgreement_B cexO (KG_pkA cexO) zeroBytes zeroBytes zeroPoly
      zeroPoly zeroBytes).SharedSecretB =
      RecKey (fun k => (SAB_v cexO (KG_pkA cexO) k).toNat) (SAB_r cexO (KG_pkA cexO)) := by
    rw [hSAB]
  have hpkB : (SecretAgreement_B cexO (KG_pkA cexO) zeroBytes zeroBytes zeroPoly
      zeroPoly zeroBytes).PublicKeyB = SAB_pkB cexO (KG_pkA cexO) := by
    rw [hSAB]
  refine ⟨?_, ?_, ?_, ?_, ?_, ?_, ?_, ?_, ?_, ?_, ?_⟩
  · intro n len i
    show n % 256 < 256
    omega
  · intro s k
    show 0 < PARAMETER_Q
    decide
  · intro key nce len i
    have hA : ∀ t, cexStreamA1 t < 256 := by
      intro t
      simp only [cexStreamA1]
      split_ifs <;> norm_num
    have hB : ∀ t, cexStreamB0 t < 256 := by
      intro t
      simp only [cexStreamB0]
      split_ifs <;> norm_num
    show (if key 0 = 1 then
        if nce = get_error_nonce 1 then cexStreamA1 else fun _ => 0
      else
        if nce = get_error_nonce 0 then cexStreamB0 else fun _ => 0) i < 256
    split_ifs
    · exact hA i
    · norm_num
    · exact hB i
    · norm_num
  · intro n len
    rfl
  · intro s
    rfl
  · intro key nce len
    rfl
  · rw [hKG]
  · rw [hpkA, hSAB]
  · rfl
  · rw [hpkA, hssB]
    rw [RecKey_byte _ _ 8 1 1 1 1 1 0 0 0 cex_bitB64 cex_bitB65 cex_bitB66
      cex_bitB67 cex_bitB68 cex_bitB69 cex_bitB70 cex_bitB71]
  · rw [hpkA, hpkB, hskA, SAA_eq]
    dsimp only
    rw [RecKey_byte _ _ 8 1 0 0 0 0 1 1 1 cex_bitA64 cex_bitA65 cex_bitA66
      cex_bitA67 cex_bitA68 cex_bitA69 cex_bitA70 cex_bitA71]

end LatticeCrypto
